import Mathlib

/-!
Shallow embedding of the hr-fde-backend core: the analytics aggregation
engine (`app/services/analytics_service.py`) and the booking transaction
(`app/routes/booked_loads.py`, `app/db/repositories/booked_load_repo.py`,
with the booking service layer modelled from the spec where its file is
not part of the provided sources).

Python dict rows become records with `Option` fields for nullable columns;
Python floats (rates, and the `count / total * 100` shares) are modelled
as exact rationals; Python's `round` (banker's rounding) is `pyRound`;
`collections.Counter` insertion-ordered counting is an association list
built by `bump`; `Counter.most_common()` and `list.sort` / `sorted` are
stable sorts, rendered with `List.insertionSort` over a non-strict
relation, which is stable in the same sense as CPython's sort.
-/

namespace HrFde

/-- Python's built-in `round` on an exact rational: round half to even. -/
def pyRound (q : ℚ) : ℤ :=
  if q - ⌊q⌋ < 1/2 then ⌊q⌋
  else if 1/2 < q - ⌊q⌋ then ⌊q⌋ + 1
  else if ⌊q⌋ % 2 = 0 then ⌊q⌋ else ⌊q⌋ + 1

/-- Increment the count of key `k` in an insertion-ordered counter
(`Counter[...] += 1`): first occurrence appends at the end, later ones
update in place, preserving first-encounter order. -/
def bump {α : Type} [DecidableEq α] : List (α × Nat) → α → List (α × Nat)
  | [], k => [(k, 1)]
  | (k', n) :: rest, k =>
      if k' = k then (k', n + 1) :: rest else (k', n) :: bump rest k

/-- Python `dict.get(k, 0)` on a counter rendered as an association list. -/
def lookupCount {α : Type} [DecidableEq α] : List (α × Nat) → α → Nat
  | [], _ => 0
  | (k', n) :: rest, k => if k' = k then n else lookupCount rest k

/-- Python `dict.get(k, [])` on an accumulator of rate lists. -/
def lookupRates : List (String × List ℚ) → String → List ℚ
  | [], _ => []
  | (k', v) :: rest, k => if k' = k then v else lookupRates rest k

/-- `lane_rates[lane].append(q)` on an insertion-ordered `defaultdict(list)`. -/
def addRate : List (String × List ℚ) → String → ℚ → List (String × List ℚ)
  | [], k, q => [(k, [q])]
  | (k', v) :: rest, k, q =>
      if k' = k then (k', v ++ [q]) :: rest else (k', v) :: addRate rest k q

/-- `Counter.most_common()`: stable sort of the counter items by count
descending (CPython sorts stably on the negated count, so ties keep
first-encounter order; insertion sort over `b.2 ≤ a.2` is stable the
same way). -/
def mostCommon {α : Type} (l : List (α × Nat)) : List (α × Nat) :=
  List.insertionSort (fun a b => b.2 ≤ a.2) l

/-- `Counter.most_common(n)`. -/
def mostCommonN {α : Type} (n : Nat) (l : List (α × Nat)) : List (α × Nat) :=
  (mostCommon l).take n

/-- Iterating `for key in sorted(buckets)` over a counter with `Nat` keys,
key order ascending, keeping each key's count alongside. -/
def sortByKey (l : List (Nat × Nat)) : List (Nat × Nat) :=
  List.insertionSort (fun a b => a.1 ≤ b.1) l

/-- A row of the `calls` table as consumed by the analytics service
(including the `agreed_rate` enrichment of the all-calls query). -/
structure CallRow where
  outcome : String
  negotiation_rounds : Option Nat
  equipment_type : Option String
  lane_origin : Option String
  lane_destination : Option String
  final_rate : Option ℚ
  agreed_rate : Option ℚ
deriving DecidableEq, Repr

structure NegotiationDepthBucket where
  bucketRound : String
  pct : ℤ
deriving DecidableEq, Repr

structure CarrierObjection where
  reason : String
  count : Nat
  pct : ℤ
deriving DecidableEq, Repr

structure TopLane where
  lane : String
  calls : Nat
  bookings : Nat
  avg_rate : String
deriving DecidableEq, Repr

structure EquipmentDemandSupply where
  equipType : String
  demand : ℤ
  supply : ℤ
deriving DecidableEq, Repr

structure AnalyticsResponse where
  negotiation_depth : List NegotiationDepthBucket
  carrier_objections : List CarrierObjection
  top_lanes : List TopLane
  equipment_demand_supply : List EquipmentDemandSupply
deriving DecidableEq, Repr

/-- `_DEPTH_LABELS.get(key, f"{key} rounds")`. -/
def depthLabel (k : Nat) : String :=
  if k = 0 then "1st offer"
  else if k = 1 then "1 round"
  else if k = 2 then "2 rounds"
  else if k = 3 then "3 rounds (max)"
  else s!"{k} rounds"

/-- `key = min(call.get("negotiation_rounds", 0) or 0, 3)`: an absent or
null `negotiation_rounds` is treated as 0, and rounds are clamped at 3. -/
def depthKey (c : CallRow) : Nat :=
  min (c.negotiation_rounds.getD 0) 3

/-- `_negotiation_depth`, with the booked-calls query result passed in. -/
def negotiationDepth (booked : List CallRow) : List NegotiationDepthBucket :=
  match booked with
  | [] => []
  | _ =>
    let buckets := booked.foldl (fun acc c => bump acc (depthKey c)) []
    let total : ℕ := (buckets.map (·.2)).sum
    (sortByKey buckets).map fun p =>
      ⟨depthLabel p.1, pyRound ((p.2 : ℚ) / (total : ℚ) * 100)⟩

/-- The step of the loop over the failed/dropped calls in
`_carrier_objections`: outcomes other than the two recognized ones
leave the counter untouched. -/
def objectionStepFailed (acc : List (String × Nat)) (c : CallRow) :
    List (String × Nat) :=
  if c.outcome = "negotiation_failed" then bump acc "Rate too low"
  else if c.outcome = "dropped_call" then bump acc "Call dropped"
  else acc

/-- The step of the loop over all calls in `_carrier_objections`: only
`no_loads_available` is counted there. -/
def objectionStepAll (acc : List (String × Nat)) (c : CallRow) :
    List (String × Nat) :=
  if c.outcome = "no_loads_available" then bump acc "No matching loads" else acc

/-- `_carrier_objections`, with the two query results passed in. -/
def carrierObjections (failed all_calls : List CallRow) :
    List CarrierObjection :=
  let reasons :=
    all_calls.foldl objectionStepAll (failed.foldl objectionStepFailed [])
  match reasons with
  | [] => []
  | _ =>
    let total : ℕ := (reasons.map (·.2)).sum
    (mostCommon reasons).map fun p =>
      ⟨p.1, p.2, pyRound ((p.2 : ℚ) / (total : ℚ) * 100)⟩

/-- Python truthiness test `not x` on a nullable string: true for both a
missing value and the empty string. -/
def falsyStr : Option String → Bool
  | none => true
  | some s => s.isEmpty

/-- `call.get("agreed_rate") or call.get("final_rate")`: Python's `or`
falls through on falsy values, so a missing *or zero* agreed rate falls
back to the final rate (itself possibly missing or zero). -/
def orRate : Option ℚ → Option ℚ → Option ℚ
  | some x, b => if x = 0 then b else some x
  | none, b => b

/-- The three accumulators of the loop in `_top_lanes`. -/
structure LaneAcc where
  lane_calls : List (String × Nat)
  lane_bookings : List (String × Nat)
  lane_rates : List (String × List ℚ)
deriving Repr

/-- `f"{origin} → {dest}"`. -/
def laneKey (origin dest : String) : String :=
  origin ++ " → " ++ dest

/-- One iteration of the loop over all calls in `_top_lanes`: skip the call
when either endpoint is falsy, otherwise count the call, and — when its
outcome is `booked` — count the booking and record the rate chosen by
`agreed_rate or final_rate` when that is non-null. -/
def laneStep (acc : LaneAcc) (c : CallRow) : LaneAcc :=
  if falsyStr c.lane_origin || falsyStr c.lane_destination then acc
  else
    let lane := laneKey (c.lane_origin.getD "") (c.lane_destination.getD "")
    let acc1 : LaneAcc :=
      { acc with lane_calls := bump acc.lane_calls lane }
    if c.outcome = "booked" then
      let acc2 : LaneAcc :=
        { acc1 with lane_bookings := bump acc1.lane_bookings lane }
      match orRate c.agreed_rate c.final_rate with
      | some q => { acc2 with lane_rates := addRate acc2.lane_rates lane q }
      | none => acc2
    else acc1

/-- The accumulators after the loop of `_top_lanes` over `all_calls`. -/
def laneAccOf (all_calls : List CallRow) : LaneAcc :=
  all_calls.foldl laneStep ⟨[], [], []⟩

/-- Digit grouping of `f"{x:,.0f}"`, working on a reversed digit list:
a comma after every three digits from the right. -/
def groupRev : List Char → List Char
  | a :: b :: c :: d :: rest => a :: b :: c :: ',' :: groupRev (d :: rest)
  | l => l

/-- Thousands separators on a decimal digit string. -/
def addCommas (s : String) : String :=
  String.mk (groupRev s.data.reverse).reverse

/-- `f"${avg:,.0f}"` applied to an already-rounded integer amount. -/
def formatMoney (n : ℤ) : String :=
  "$" ++ (if n < 0 then "-" else "") ++ addCommas (toString n.natAbs)

/-- The per-lane result row of `_top_lanes`: bookings and average rate are
looked up with `.get(lane, 0)` / `.get(lane, [])`, and a lane with no
recorded rates reports `"$0"`. -/
def laneEntry (acc : LaneAcc) (p : String × Nat) : TopLane :=
  let bookings := lookupCount acc.lane_bookings p.1
  let rates := lookupRates acc.lane_rates p.1
  match rates with
  | [] => ⟨p.1, p.2, bookings, "$0"⟩
  | _ => ⟨p.1, p.2, bookings,
          formatMoney (pyRound (rates.sum / (rates.length : ℚ)))⟩

/-- `_top_lanes`, with the all-calls query result passed in. -/
def topLanes (all_calls : List CallRow) : List TopLane :=
  match (laneAccOf all_calls).lane_calls with
  | [] => []
  | _ => (mostCommonN 5 (laneAccOf all_calls).lane_calls).map
      (laneEntry (laneAccOf all_calls))

/-- The `_EQUIP_LABELS` fixed display mapping. -/
def equipLabelsGet : String → Option String
  | "dry_van" => some "Dry Van"
  | "reefer" => some "Reefer"
  | "flatbed" => some "Flatbed"
  | "step_deck" => some "Step Deck"
  | "power_only" => some "Power Only"
  | _ => none

/-- Python `str.title()`: uppercase every letter that does not follow a
letter, lowercase the others. -/
def titleChars : Bool → List Char → List Char
  | _, [] => []
  | prevAlpha, c :: rest =>
      (if prevAlpha then c.toLower else c.toUpper) :: titleChars c.isAlpha rest

/-- `raw.replace("_", " ").title()`. -/
def underscoreTitle (raw : String) : String :=
  String.mk (titleChars false (raw.data.map fun c => if c = '_' then ' ' else c))

/-- `_format_equip`. -/
def formatEquip (raw : String) : String :=
  match equipLabelsGet raw with
  | some label => label
  | none => underscoreTitle raw

/-- `sorted(set(demand_raw) | set(supply_raw))`: the keys seen in either
counter, deduplicated, in ascending string order. -/
def sortedUnionKeys (d s : List (String × Nat)) : List String :=
  List.insertionSort (fun a b => a ≤ b)
    ((d.map Prod.fst ++ s.map Prod.fst).dedup)

/-- `_equipment_demand_supply`, with the two grouped counts passed in as
association lists (Python dicts, so their keys are assumed distinct where
a theorem needs it). `sum(...) or 1` guards each zero total. -/
def equipmentDemandSupply (demand_raw supply_raw : List (String × Nat)) :
    List EquipmentDemandSupply :=
  match sortedUnionKeys demand_raw supply_raw with
  | [] => []
  | all_types =>
    let demand_total : ℕ := max ((demand_raw.map (·.2)).sum) 1
    let supply_total : ℕ := max ((supply_raw.map (·.2)).sum) 1
    let result := all_types.map fun eq =>
      ⟨formatEquip eq,
       pyRound ((lookupCount demand_raw eq : ℚ) / (demand_total : ℚ) * 100),
       pyRound ((lookupCount supply_raw eq : ℚ) / (supply_total : ℚ) * 100)⟩
    List.insertionSort (fun a b => b.demand ≤ a.demand) result

/-- The five query results feeding `get_analytics`. -/
structure AnalyticsDb where
  booked_calls : List CallRow
  failed_calls : List CallRow
  all_calls : List CallRow
  available_loads_by_equipment : List (String × Nat)
  recent_calls_by_equipment : List (String × Nat)

/-- `get_analytics`. -/
def getAnalytics (db : AnalyticsDb) : AnalyticsResponse :=
  ⟨negotiationDepth db.booked_calls,
   carrierObjections db.failed_calls db.all_calls,
   topLanes db.all_calls,
   equipmentDemandSupply db.available_loads_by_equipment
     db.recent_calls_by_equipment⟩

/-! ## Booking transaction -/

/-- A row of the `loads` table, restricted to the fields the booking
path reads or writes. -/
structure LoadRow where
  load_id : String
  status : String
  booked_at : Option String
deriving DecidableEq, Repr

/-- A row of the `booked_loads` table, fields as in `insert_booked_load`. -/
structure BookedLoadRow where
  id : String
  load_id : String
  mc_number : String
  carrier_name : Option String
  agreed_rate : ℚ
  agreed_pickup_datetime : Option String
  offer_id : Option String
  call_id : Option String
  created_at : String
deriving DecidableEq, Repr

/-- The booking request fields of §4.3 (`BookedLoadRequest`). -/
structure BookingRequest where
  load_id : String
  mc_number : String
  agreed_rate : ℚ
  carrier_name : Option String
  agreed_pickup_datetime : Option String
  offer_id : Option String
  call_id : Option String
deriving DecidableEq, Repr

/-- The two tables the booking transaction touches. -/
structure DbState where
  loads : List LoadRow
  booked_loads : List BookedLoadRow
deriving DecidableEq, Repr

/-- The tagged booking failures: `NotFound` ("no such load") and
`Conflict` ("already booked"). -/
inductive BookError
  | NotFound
  | Conflict
deriving DecidableEq, Repr

/-- Look up a Load by `load_id` (the §4.3 step-1 read). -/
def findLoad (st : DbState) (lid : String) : Option LoadRow :=
  st.loads.find? fun l => decide (l.load_id = lid)

/-- Number of BookedLoad rows recorded for a `load_id`. -/
def countBooked (st : DbState) (lid : String) : Nat :=
  (st.booked_loads.filter fun b => decide (b.load_id = lid)).length

/-- `insert_booked_load` (`booked_load_repo.py`): within one transaction,
insert the BookedLoad row and set every Load with the same `load_id` to
`status = 'booked'`, `booked_at = created_at`. -/
def insertBookedLoad (st : DbState) (b : BookedLoadRow) : DbState :=
  { loads := st.loads.map fun l =>
      if l.load_id = b.load_id then
        { l with status := "booked", booked_at := some b.created_at }
      else l,
    booked_loads := st.booked_loads ++ [b] }

/-- Modelled from the spec: `book_load` of
`app/services/booked_load_service.py` is not among the provided sources
(only its route caller and the repository write are), so the §4.3
algorithm is transcribed: look up the Load (absent → `NotFound`), check
`status = 'available'` (otherwise → `Conflict`), then perform the
two-table write via `insertBookedLoad`. The generated booking id and the
UTC timestamp are passed in explicitly. A failure leaves the state
untouched. -/
def bookLoad (st : DbState) (req : BookingRequest) (genId ts : String) :
    Except BookError BookedLoadRow × DbState :=
  match findLoad st req.load_id with
  | none => (Except.error BookError.NotFound, st)
  | some l =>
    if l.status = "available" then
      let b : BookedLoadRow :=
        ⟨genId, req.load_id, req.mc_number, req.carrier_name,
         req.agreed_rate, req.agreed_pickup_datetime, req.offer_id,
         req.call_id, ts⟩
      (Except.ok b, insertBookedLoad st b)
    else (Except.error BookError.Conflict, st)

/-- The boundary mapping of `create_booking` (`routes/booked_loads.py`):
`status = 409 if "already booked" in error else 404`, with the spec's
error strings tying `Conflict` to "already booked". -/
def createBookingStatus : BookError → Nat
  | BookError.Conflict => 409
  | BookError.NotFound => 404

/-- N booking attempts executed as serialized atomic transactions (§5:
the datastore serializes conflicting writers, so any concurrent schedule
is equivalent to some serial order of the transactions). -/
def runBookings (st : DbState) :
    List (BookingRequest × String × String) →
      List (Except BookError BookedLoadRow) × DbState
  | [] => ([], st)
  | (req, i, t) :: rest =>
    let r := bookLoad st req i t
    let tail := runBookings r.2 rest
    (r.1 :: tail.1, tail.2)

def isOk : Except BookError BookedLoadRow → Bool
  | Except.ok _ => true
  | Except.error _ => false

def isConflict : Except BookError BookedLoadRow → Bool
  | Except.error BookError.Conflict => true
  | _ => false

/-! ## Booking lemmas -/

theorem findLoad_insertBookedLoad (st : DbState) (b : BookedLoadRow)
    (lid : String) :
    findLoad (insertBookedLoad st b) lid =
      (findLoad st lid).map fun l =>
        if l.load_id = b.load_id then
          { l with status := "booked", booked_at := some b.created_at }
        else l := by
  unfold findLoad insertBookedLoad
  rw [List.find?_map]
  have hpred : ((fun l => decide (l.load_id = lid)) ∘ fun l : LoadRow =>
      if l.load_id = b.load_id then
        { l with status := "booked", booked_at := some b.created_at }
      else l) = fun l : LoadRow => decide (l.load_id = lid) := by
    funext l
    by_cases h : l.load_id = b.load_id <;> simp [Function.comp, h]
  rw [hpred]

theorem countBooked_insertBookedLoad (st : DbState) (b : BookedLoadRow)
    (lid : String) (h : b.load_id = lid) :
    countBooked (insertBookedLoad st b) lid = countBooked st lid + 1 := by
  simp [countBooked, insertBookedLoad, List.filter_append, h]

theorem bookLoad_available_success (st : DbState) (req : BookingRequest)
    (i t : String) (l : LoadRow)
    (hfind : findLoad st req.load_id = some l)
    (havail : l.status = "available") :
    ∃ b st', bookLoad st req i t = (Except.ok b, st') ∧
      b.load_id = req.load_id ∧ b.id = i ∧ b.created_at = t ∧
      st' = insertBookedLoad st b ∧
      findLoad st' req.load_id =
        some { l with status := "booked", booked_at := some t } ∧
      countBooked st' req.load_id = countBooked st req.load_id + 1 := by
  have hlid : l.load_id = req.load_id := by
    have := List.find?_some hfind
    exact of_decide_eq_true this
  refine ⟨⟨i, req.load_id, req.mc_number, req.carrier_name, req.agreed_rate,
    req.agreed_pickup_datetime, req.offer_id, req.call_id, t⟩, _, ?_, rfl, rfl,
    rfl, rfl, ?_, ?_⟩
  · unfold bookLoad
    rw [hfind]
    simp [havail]
  · rw [findLoad_insertBookedLoad, hfind]
    simp [hlid]
  · exact countBooked_insertBookedLoad st _ req.load_id rfl

theorem bookLoad_not_available (st : DbState) (req : BookingRequest)
    (i t : String) (l : LoadRow)
    (hfind : findLoad st req.load_id = some l)
    (hst : l.status ≠ "available") :
    bookLoad st req i t = (Except.error BookError.Conflict, st) := by
  unfold bookLoad
  rw [hfind]
  simp [hst]

theorem bookLoad_not_found (st : DbState) (req : BookingRequest)
    (i t : String) (hfind : findLoad st req.load_id = none) :
    bookLoad st req i t = (Except.error BookError.NotFound, st) := by
  unfold bookLoad
  rw [hfind]

theorem bookLoad_error_state (st : DbState) (req : BookingRequest)
    (i t : String) (e : BookError) (st' : DbState)
    (h : bookLoad st req i t = (Except.error e, st')) : st' = st := by
  unfold bookLoad at h
  cases hf : findLoad st req.load_id with
  | none => rw [hf] at h; exact (Prod.mk.injEq _ _ _ _ ▸ h).2.symm ▸ rfl
  | some l =>
    rw [hf] at h
    by_cases hs : l.status = "available"
    · simp [hs] at h
    · simp [hs] at h
      exact h.2.symm

theorem runBookings_all_conflict (lid : String) (l : LoadRow)
    (hst : l.status = "booked") :
    ∀ (reqs : List (BookingRequest × String × String)) (st : DbState),
      findLoad st lid = some l →
      (∀ r ∈ reqs, (r.1).load_id = lid) →
      runBookings st reqs =
        (reqs.map fun _ => Except.error BookError.Conflict, st)
  | [], st, _, _ => rfl
  | (req, i, t) :: rest, st, hfind, htarget => by
    have h1 : bookLoad st req i t = (Except.error BookError.Conflict, st) := by
      apply bookLoad_not_available st req i t l
      · rw [htarget (req, i, t) (List.mem_cons_self _ _)]; exact hfind
      · rw [hst]; decide
    have h2 := runBookings_all_conflict lid l hst rest st hfind
      (fun r hr => htarget r (List.mem_cons_of_mem _ hr))
    simp [runBookings, h1, h2]

/-- Claim C1: for a Load that is `available`, `bookLoad` succeeds; after
the success the Load's status reads `booked` and exactly one BookedLoad
row exists for the `load_id`; a second `bookLoad` for the same `load_id`
fails with `Conflict` leaving the state unchanged; a `bookLoad` whose
`load_id` matches no Load fails with `NotFound`; and the two failures are
distinguishable outcomes, mapped to distinct response codes by the route. -/
theorem C1_book_load_lifecycle (st : DbState) (req req2 : BookingRequest)
    (l : LoadRow) (id1 ts1 id2 ts2 : String)
    (hfind : findLoad st req.load_id = some l)
    (havail : l.status = "available")
    (hnone : countBooked st req.load_id = 0)
    (hsame : req2.load_id = req.load_id) :
    ∃ b st', bookLoad st req id1 ts1 = (Except.ok b, st') ∧
      b.load_id = req.load_id ∧
      (∃ l', findLoad st' req.load_id = some l' ∧ l'.status = "booked") ∧
      countBooked st' req.load_id = 1 ∧
      bookLoad st' req2 id2 ts2 = (Except.error BookError.Conflict, st') ∧
      (∀ (r : BookingRequest) (i t : String), findLoad st r.load_id = none →
        bookLoad st r i t = (Except.error BookError.NotFound, st)) ∧
      BookError.NotFound ≠ BookError.Conflict ∧
      createBookingStatus BookError.NotFound ≠
        createBookingStatus BookError.Conflict := by
  obtain ⟨b, st', hrun, hbl, _, _, _, hfind', hcount⟩ :=
    bookLoad_available_success st req id1 ts1 l hfind havail
  refine ⟨b, st', hrun, hbl, ⟨_, hfind', rfl⟩, by rw [hcount, hnone], ?_,
    fun r i t hf => bookLoad_not_found st r i t hf, by decide, by decide⟩
  exact bookLoad_not_available st' req2 id2 ts2
    { l with status := "booked", booked_at := some ts1 }
    (by rw [hsame]; exact hfind')
    (show ("booked" : String) ≠ "available" by decide)

/-- Witness for C1 at a one-load state. -/
theorem C1_book_load_lifecycle_witness :
    ∃ b st',
      bookLoad ⟨[⟨"L1", "available", none⟩], []⟩
          ⟨"L1", "MC1", 100, none, none, none, none⟩ "BK-1" "T1" =
        (Except.ok b, st') ∧
      b.load_id = "L1" ∧
      (∃ l', findLoad st' "L1" = some l' ∧ l'.status = "booked") ∧
      countBooked st' "L1" = 1 ∧
      bookLoad st' ⟨"L1", "MC2", 200, none, none, none, none⟩ "BK-2" "T2" =
        (Except.error BookError.Conflict, st') ∧
      (∀ (r : BookingRequest) (i t : String),
        findLoad ⟨[⟨"L1", "available", none⟩], []⟩ r.load_id = none →
        bookLoad ⟨[⟨"L1", "available", none⟩], []⟩ r i t =
          (Except.error BookError.NotFound,
            ⟨[⟨"L1", "available", none⟩], []⟩)) ∧
      BookError.NotFound ≠ BookError.Conflict ∧
      createBookingStatus BookError.NotFound ≠
        createBookingStatus BookError.Conflict :=
  C1_book_load_lifecycle ⟨[⟨"L1", "available", none⟩], []⟩
    ⟨"L1", "MC1", 100, none, none, none, none⟩
    ⟨"L1", "MC2", 200, none, none, none, none⟩
    ⟨"L1", "available", none⟩ "BK-1" "T1" "BK-2" "T2" rfl rfl rfl rfl

theorem countP_replicate_conflict (n : Nat) :
    ((List.replicate n (Except.error BookError.Conflict :
        Except BookError BookedLoadRow)).countP isOk = 0 ∧
     (List.replicate n (Except.error BookError.Conflict :
        Except BookError BookedLoadRow)).countP isConflict = n) := by
  induction n with
  | zero => exact ⟨rfl, rfl⟩
  | succ n ih => simpa [List.replicate_succ, isOk, isConflict] using ih

/-- Claim C2: N booking attempts for the same `load_id` of an `available`
Load, executed as serialized atomic transactions (§5 reduces concurrent
schedules to a serial order), yield exactly one success and N−1
`Conflict` failures; and every failed transaction leaves the state
exactly as it found it (no partial write). -/
theorem C2_booking_exactly_one_success (st : DbState) (l : LoadRow)
    (lid : String) (reqs : List (BookingRequest × String × String))
    (hfind : findLoad st lid = some l) (havail : l.status = "available")
    (htarget : ∀ r ∈ reqs, (r.1).load_id = lid) (hne : reqs ≠ []) :
    ((runBookings st reqs).1.countP isOk = 1 ∧
     (runBookings st reqs).1.countP isConflict = reqs.length - 1) ∧
    (∀ (s : DbState) (r : BookingRequest) (i t : String) (e : BookError)
       (s' : DbState),
      bookLoad s r i t = (Except.error e, s') → s' = s) := by
  refine ⟨?_, fun s r i t e s' h => bookLoad_error_state s r i t e s' h⟩
  match reqs, hne with
  | (req, i, t) :: rest, _ =>
    have hlid : req.load_id = lid := htarget (req, i, t) (List.mem_cons_self _ _)
    obtain ⟨b, st', hrun, _, _, _, _, hfind', _⟩ :=
      bookLoad_available_success st req i t l (by rw [hlid]; exact hfind) havail
    have hrest := runBookings_all_conflict lid
      { l with status := "booked", booked_at := some t } rfl rest st'
      (by rw [← hlid]; exact hfind')
      (fun r hr => htarget r (List.mem_cons_of_mem _ hr))
    have hcp := countP_replicate_conflict rest.length
    simp [runBookings, hrun, hrest, isOk, isConflict, hcp.1, hcp.2]

/-- Witness for C2 with three attempts against one available load. -/
theorem C2_booking_exactly_one_success_witness :
    (((runBookings ⟨[⟨"L1", "available", none⟩], []⟩
        [(⟨"L1", "MC1", 100, none, none, none, none⟩, "BK-1", "T1"),
         (⟨"L1", "MC2", 200, none, none, none, none⟩, "BK-2", "T2"),
         (⟨"L1", "MC3", 300, none, none, none, none⟩, "BK-3", "T3")]).1.countP
          isOk = 1 ∧
      ((runBookings ⟨[⟨"L1", "available", none⟩], []⟩
        [(⟨"L1", "MC1", 100, none, none, none, none⟩, "BK-1", "T1"),
         (⟨"L1", "MC2", 200, none, none, none, none⟩, "BK-2", "T2"),
         (⟨"L1", "MC3", 300, none, none, none, none⟩, "BK-3", "T3")]).1.countP
          isConflict =
        ([(⟨"L1", "MC1", 100, none, none, none, none⟩, "BK-1", "T1"),
          (⟨"L1", "MC2", 200, none, none, none, none⟩, "BK-2", "T2"),
          (⟨"L1", "MC3", 300, none, none, none, none⟩, "BK-3", "T3")] :
            List (BookingRequest × String × String)).length - 1)) ∧
     (∀ (s : DbState) (r : BookingRequest) (i t : String) (e : BookError)
        (s' : DbState),
       bookLoad s r i t = (Except.error e, s') → s' = s)) :=
  C2_booking_exactly_one_success ⟨[⟨"L1", "available", none⟩], []⟩
    ⟨"L1", "available", none⟩ "L1"
    [(⟨"L1", "MC1", 100, none, none, none, none⟩, "BK-1", "T1"),
     (⟨"L1", "MC2", 200, none, none, none, none⟩, "BK-2", "T2"),
     (⟨"L1", "MC3", 300, none, none, none, none⟩, "BK-3", "T3")]
    rfl rfl
    (by intro r hr
        simp only [List.mem_cons, List.not_mem_nil, or_false] at hr
        rcases hr with rfl | rfl | rfl <;> rfl)
    (by simp)

/-! ## Rounding lemmas -/

theorem pyRound_intCast (n : ℤ) : pyRound ((n : ℚ)) = n := by
  unfold pyRound
  rw [Int.floor_intCast]
  norm_num

theorem pyRound_zero : pyRound 0 = 0 := by
  simpa using pyRound_intCast 0

theorem pyRound_one : pyRound 1 = 1 := by
  simpa using pyRound_intCast 1

theorem pyRound_ofNat (n : ℕ) [n.AtLeastTwo] :
    pyRound (no_index (OfNat.ofNat n)) = OfNat.ofNat n := by
  simpa using pyRound_intCast (OfNat.ofNat n)

/-- Banker's rounding moves a rational by at most 1/2. -/
theorem abs_pyRound_sub_le (q : ℚ) : |(pyRound q : ℚ) - q| ≤ 1/2 := by
  have h0 : (⌊q⌋ : ℚ) ≤ q := Int.floor_le q
  have h1 : q < ⌊q⌋ + 1 := Int.lt_floor_add_one q
  unfold pyRound
  split_ifs with hlt hgt hev <;>
    (rw [abs_le]; constructor <;> push_cast <;> linarith)

/-- Rounding each entry of a list moves the sum by at most length/2. -/
theorem abs_sum_pyRound_sub_sum_le (l : List ℚ) :
    |((l.map fun q => (pyRound q : ℚ)).sum) - l.sum| ≤ (l.length : ℚ) / 2 := by
  induction l with
  | nil => simp
  | cons q l ih =>
    have h := abs_pyRound_sub_le q
    have tri : |((pyRound q : ℚ) + (l.map fun q => (pyRound q : ℚ)).sum) -
        (q + l.sum)| ≤
        |(pyRound q : ℚ) - q| +
          |((l.map fun q => (pyRound q : ℚ)).sum) - l.sum| := by
      rw [add_sub_add_comm]
      exact abs_add _ _
    simp only [List.map_cons, List.sum_cons, List.length_cons]
    refine le_trans tri ?_
    push_cast
    linarith

/-- The `round(count / total * 100)` shares of a list of counts with a
nonzero total sum to 100 up to (number of buckets − 1). -/
theorem pct_sum_master (counts : List ℕ) (T : ℕ) (hT : counts.sum = T)
    (h0 : T ≠ 0) :
    |(counts.map fun n : ℕ => pyRound ((n : ℚ) / (T : ℚ) * 100)).sum -
        100| ≤ (counts.length : ℤ) - 1 := by
  have hne : counts ≠ [] := by
    intro h
    rw [h] at hT
    exact h0 hT.symm
  have hk : 1 ≤ counts.length := by
    cases counts with
    | nil => exact absurd rfl hne
    | cons c cs => simp
  set xs : List ℚ := counts.map fun n : ℕ => (n : ℚ) / (T : ℚ) * 100 with hxs
  have hxsum : xs.sum = 100 := by
    have h1 : xs = counts.map fun n : ℕ => (n : ℚ) * (100 / (T : ℚ)) := by
      rw [hxs]
      congr 1
      funext n
      field_simp
    have h2 : (counts.map fun n : ℕ => (n : ℚ) * (100 / (T : ℚ))).sum =
        (counts.map fun n : ℕ => (n : ℚ)).sum * (100 / (T : ℚ)) := by
      rw [← List.sum_map_mul_right]
    have h3 : (counts.map fun n : ℕ => (n : ℚ)).sum = (T : ℚ) := by
      rw [← hT]
      exact (Nat.cast_list_sum counts).symm
    rw [h1, h2, h3]
    field_simp
  have hround : (counts.map fun n : ℕ => pyRound ((n : ℚ) / (T : ℚ) * 100)) =
      xs.map pyRound := by
    rw [hxs, List.map_map]
    rfl
  have hQ : |((xs.map pyRound).sum : ℚ) - 100| ≤ (xs.length : ℚ) / 2 := by
    have hcast : ((xs.map pyRound).sum : ℚ) =
        (xs.map fun q => (pyRound q : ℚ)).sum := by
      rw [Int.cast_list_sum, List.map_map]
      rfl
    rw [hcast, ← hxsum]
    exact abs_sum_pyRound_sub_sum_le xs
  have hlen : xs.length = counts.length := by
    rw [hxs, List.length_map]
  rw [hround]
  set S : ℤ := (xs.map pyRound).sum with hS
  have h2 : |2 * S - 200| ≤ (counts.length : ℤ) := by
    have : |(2 : ℚ) * (S : ℚ) - 200| ≤ (counts.length : ℚ) := by
      have := abs_le.mp hQ
      rw [abs_le]
      rw [hlen] at this
      constructor <;> linarith [this.1, this.2]
    exact_mod_cast this
  have h2' := abs_le.mp h2
  rw [abs_le]
  omega

/-! ## Counter lemmas -/

theorem bump_ne_nil {α : Type} [DecidableEq α] (l : List (α × Nat)) (k : α) :
    bump l k ≠ [] := by
  cases l with
  | nil => simp [bump]
  | cons p rest =>
    obtain ⟨k', n⟩ := p
    by_cases h : k' = k <;> simp [bump, h]

theorem sum_bump {α : Type} [DecidableEq α] (l : List (α × Nat)) (k : α) :
    ((bump l k).map (·.2)).sum = (l.map (·.2)).sum + 1 := by
  induction l with
  | nil => simp [bump]
  | cons p rest ih =>
    obtain ⟨k', n⟩ := p
    by_cases h : k' = k
    · simp [bump, h]
      omega
    · simp [bump, h, ih]
      omega

/-- Every count in a counter built by `bump` steps is positive. -/
def AllPos {α : Type} (l : List (α × Nat)) : Prop := ∀ p ∈ l, 0 < p.2

theorem allPos_nil {α : Type} : AllPos ([] : List (α × Nat)) := by
  intro p hp
  cases hp

theorem allPos_bump {α : Type} [DecidableEq α] {l : List (α × Nat)}
    (h : AllPos l) (k : α) : AllPos (bump l k) := by
  induction l with
  | nil =>
    intro p hp
    simp [bump] at hp
    simp [hp]
  | cons q rest ih =>
    obtain ⟨k', n⟩ := q
    by_cases hk : k' = k
    · intro p hp
      simp [bump, hk] at hp
      rcases hp with hp | hp
      · simp [hp]
      · exact h p (List.mem_cons_of_mem _ hp)
    · intro p hp
      simp only [bump, if_neg hk, List.mem_cons] at hp
      rcases hp with hp | hp
      · rw [hp]
        exact h _ (List.mem_cons_self _ _)
      · exact ih (fun q hq => h q (List.mem_cons_of_mem _ hq)) p hp

theorem sum_pos_of_allPos {α : Type} {l : List (α × Nat)} (h : AllPos l)
    (hne : l ≠ []) : (l.map (·.2)).sum ≠ 0 := by
  cases l with
  | nil => exact absurd rfl hne
  | cons p rest =>
    have := h p (List.mem_cons_self _ _)
    simp only [List.map_cons, List.sum_cons]
    omega

/-! ## Empty-input behaviour (C3) -/

/-- Claim C3: every aggregation yields the empty list on an empty input
row set, and `get_analytics` on an empty 30-day window returns a snapshot
with all four lists empty; all functions are total, so no exception and
no division by zero can occur. -/
theorem C3_empty_inputs :
    negotiationDepth [] = [] ∧
    carrierObjections [] [] = [] ∧
    topLanes [] = [] ∧
    equipmentDemandSupply [] [] = [] ∧
    getAnalytics ⟨[], [], [], [], []⟩ = ⟨[], [], [], []⟩ :=
  ⟨rfl, rfl, rfl, rfl, rfl⟩

/-! ## Percentage sums (C4) -/

theorem foldl_bump_ne_nil {α β : Type} [DecidableEq α] (f : β → α) :
    ∀ (xs : List β) (init : List (α × Nat)), init ≠ [] →
      xs.foldl (fun acc x => bump acc (f x)) init ≠ []
  | [], _, h => h
  | x :: xs, init, h =>
    foldl_bump_ne_nil f xs (bump init (f x)) (bump_ne_nil init (f x))

theorem foldl_allPos {β γ : Type} (step : List (γ × Nat) → β → List (γ × Nat))
    (hstep : ∀ acc x, AllPos acc → AllPos (step acc x)) :
    ∀ (xs : List β) (init : List (γ × Nat)), AllPos init →
      AllPos (xs.foldl step init)
  | [], _, h => h
  | x :: xs, init, h =>
    foldl_allPos step hstep xs (step init x) (hstep init x h)

theorem depthBuckets_allPos (booked : List CallRow) :
    AllPos (booked.foldl (fun acc c => bump acc (depthKey c)) []) :=
  foldl_allPos _ (fun acc c h => allPos_bump h (depthKey c)) booked [] allPos_nil

theorem objections_allPos (failed all_calls : List CallRow) :
    AllPos (all_calls.foldl objectionStepAll
      (failed.foldl objectionStepFailed [])) := by
  apply foldl_allPos
  · intro acc c h
    unfold objectionStepAll
    split_ifs with h1
    · exact allPos_bump h _
    · exact h
  · apply foldl_allPos
    · intro acc c h
      unfold objectionStepFailed
      split_ifs with h1 h2
      · exact allPos_bump h _
      · exact allPos_bump h _
      · exact h
    · exact allPos_nil

theorem lookupCount_eq_zero_of_not_mem {α : Type} [DecidableEq α]
    (l : List (α × Nat)) (k : α) (h : k ∉ l.map Prod.fst) :
    lookupCount l k = 0 := by
  induction l with
  | nil => rfl
  | cons p rest ih =>
    obtain ⟨k', n⟩ := p
    have hne : k' ≠ k := by
      intro he
      exact h (by simp [he])
    simp only [lookupCount, if_neg hne]
    exact ih (fun hm => h (by simp at hm ⊢; exact Or.inr hm))

theorem sum_map_indicator {α : Type} [DecidableEq α] (v : ℕ) (k : α) :
    ∀ (S : List α), S.Nodup → k ∈ S →
      (S.map fun s => if k = s then v else 0).sum = v
  | [], _, hk => absurd hk (List.not_mem_nil k)
  | s :: S, hnd, hk => by
    rcases List.mem_cons.mp hk with rfl | hk'
    · have hnot : k ∉ S := (List.nodup_cons.mp hnd).1
      have : (S.map fun s => if k = s then v else 0).sum = 0 := by
        apply List.sum_eq_zero
        intro x hx
        obtain ⟨s', hs', hval⟩ := List.mem_map.mp hx
        have hne : k ≠ s' := fun he => hnot (by rw [he]; exact hs')
        rw [if_neg hne] at hval
        exact hval.symm
      simp [this]
    · have hne : k ≠ s := by
        intro he
        exact (List.nodup_cons.mp hnd).1 (he ▸ hk')
      simp only [List.map_cons, List.sum_cons, if_neg hne, Nat.zero_add]
      exact sum_map_indicator v k S (List.nodup_cons.mp hnd).2 hk'

theorem sum_lookupCount {α : Type} [DecidableEq α] :
    ∀ (d : List (α × ℕ)) (S : List α), (d.map Prod.fst).Nodup → S.Nodup →
      (∀ k ∈ d.map Prod.fst, k ∈ S) →
      (S.map fun s => lookupCount d s).sum = (d.map (·.2)).sum
  | [], S, _, _, _ => by
    simp [lookupCount]
  | (k, v) :: rest, S, hd, hS, hsub => by
    have hd' : k ∉ rest.map Prod.fst ∧ (rest.map Prod.fst).Nodup := by
      rw [List.map_cons] at hd
      exact List.nodup_cons.mp hd
    have hpt : (S.map fun s => lookupCount ((k, v) :: rest) s) =
        S.map fun s => (if k = s then v else 0) + lookupCount rest s := by
      apply List.map_congr_left
      intro s _
      by_cases he : k = s
      · subst he
        simp [lookupCount, lookupCount_eq_zero_of_not_mem rest k hd'.1]
      · simp [lookupCount, he]
    rw [hpt, List.sum_map_add,
      sum_map_indicator v k S hS (hsub k (by simp)),
      sum_lookupCount rest S hd'.2 hS
        (fun k' hk' => hsub k' (by simp [hk']))]
    simp

theorem sortedUnionKeys_nodup (d s : List (String × Nat)) :
    (sortedUnionKeys d s).Nodup :=
  (List.perm_insertionSort _ _).nodup_iff.mpr (List.nodup_dedup _)

theorem mem_sortedUnionKeys_left (d s : List (String × Nat)) (k : String)
    (h : k ∈ d.map Prod.fst) : k ∈ sortedUnionKeys d s :=
  (List.perm_insertionSort _ _).mem_iff.mpr
    (List.mem_dedup.mpr (List.mem_append_left _ h))

theorem mem_sortedUnionKeys_right (d s : List (String × Nat)) (k : String)
    (h : k ∈ s.map Prod.fst) : k ∈ sortedUnionKeys d s :=
  (List.perm_insertionSort _ _).mem_iff.mpr
    (List.mem_dedup.mpr (List.mem_append_right _ h))

theorem map_sum_insertionSort {α γ : Type} [AddCommMonoid γ]
    (r : α → α → Prop) [DecidableRel r] (g : α → γ) (l : List α) :
    ((List.insertionSort r l).map g).sum = (l.map g).sum :=
  ((List.perm_insertionSort r l).map g).sum_eq

theorem negotiationDepth_cons (c : CallRow) (rest : List CallRow) :
    negotiationDepth (c :: rest) =
      (sortByKey ((c :: rest).foldl (fun acc x => bump acc (depthKey x)) [])).map
        (fun p => ⟨depthLabel p.1,
          pyRound ((p.2 : ℚ) /
            (((((c :: rest).foldl (fun acc x => bump acc (depthKey x))
              []).map (·.2)).sum : ℕ) : ℚ) * 100)⟩) := rfl

theorem depthBuckets_ne_nil (c : CallRow) (rest : List CallRow) :
    (c :: rest).foldl (fun acc x => bump acc (depthKey x)) [] ≠ [] :=
  foldl_bump_ne_nil depthKey rest _ (bump_ne_nil [] (depthKey c))

theorem carrierObjections_eq (failed all_calls : List CallRow)
    (r0 : String × Nat) (rs : List (String × Nat))
    (hr : all_calls.foldl objectionStepAll
      (failed.foldl objectionStepFailed []) = r0 :: rs) :
    carrierObjections failed all_calls =
      (mostCommon (r0 :: rs)).map (fun p =>
        ⟨p.1, p.2, pyRound ((p.2 : ℚ) /
          (((((r0 :: rs)).map (·.2)).sum : ℕ) : ℚ) * 100)⟩) := by
  unfold carrierObjections
  rw [hr]

theorem carrierObjections_nil_of (failed all_calls : List CallRow)
    (hr : all_calls.foldl objectionStepAll
      (failed.foldl objectionStepFailed []) = []) :
    carrierObjections failed all_calls = [] := by
  unfold carrierObjections
  rw [hr]

theorem equipmentDemandSupply_eq (d s : List (String × Nat)) (t0 : String)
    (ts : List String) (hr : sortedUnionKeys d s = t0 :: ts) :
    equipmentDemandSupply d s =
      List.insertionSort (fun a b => b.demand ≤ a.demand)
        ((t0 :: ts).map fun eq =>
          ⟨formatEquip eq,
           pyRound ((lookupCount d eq : ℚ) /
             ((max ((d.map (·.2)).sum) 1 : ℕ) : ℚ) * 100),
           pyRound ((lookupCount s eq : ℚ) /
             ((max ((s.map (·.2)).sum) 1 : ℕ) : ℚ) * 100)⟩) := by
  unfold equipmentDemandSupply
  rw [hr]

/-- The entry builder of `equipmentDemandSupply`. -/
def equipEntry (d s : List (String × Nat)) (eq : String) :
    EquipmentDemandSupply :=
  ⟨formatEquip eq,
   pyRound ((lookupCount d eq : ℚ) /
     ((max ((d.map (·.2)).sum) 1 : ℕ) : ℚ) * 100),
   pyRound ((lookupCount s eq : ℚ) /
     ((max ((s.map (·.2)).sum) 1 : ℕ) : ℚ) * 100)⟩

theorem equipmentDemandSupply_eq' (d s : List (String × Nat)) (t0 : String)
    (ts : List String) (hr : sortedUnionKeys d s = t0 :: ts) :
    equipmentDemandSupply d s =
      List.insertionSort (fun a b => b.demand ≤ a.demand)
        ((t0 :: ts).map (equipEntry d s)) :=
  equipmentDemandSupply_eq d s t0 ts hr

/-- The demand-percentage family of a nonzero-total demand source sums
to 100 up to (buckets − 1). -/
theorem equipment_demand_sum_bound (d s : List (String × Nat))
    (hd : (d.map Prod.fst).Nodup) (h0 : (d.map (·.2)).sum ≠ 0) :
    |(((equipmentDemandSupply d s).map (·.demand)).sum) - 100| ≤
      ((equipmentDemandSupply d s).length : ℤ) - 1 := by
  have hdne : d ≠ [] := by
    intro h
    rw [h] at h0
    exact h0 rfl
  obtain ⟨⟨k0, v0⟩, d', rfl⟩ : ∃ p d', d = p :: d' := by
    cases d with
    | nil => exact absurd rfl hdne
    | cons p d' => exact ⟨p, d', rfl⟩
  have hmem : k0 ∈ sortedUnionKeys ((k0, v0) :: d') s :=
    mem_sortedUnionKeys_left _ _ _ (by simp)
  obtain ⟨t0, ts, hr⟩ : ∃ t0 ts,
      sortedUnionKeys ((k0, v0) :: d') s = t0 :: ts := by
    cases hu : sortedUnionKeys ((k0, v0) :: d') s with
    | nil => rw [hu] at hmem; cases hmem
    | cons t0 ts => exact ⟨t0, ts, rfl⟩
  set d := (k0, v0) :: d' with hd_eq
  rw [equipmentDemandSupply_eq' d s t0 ts hr]
  rw [map_sum_insertionSort, List.length_insertionSort, List.map_map,
    List.length_map]
  have hmax : max ((d.map (·.2)).sum) 1 = (d.map (·.2)).sum :=
    Nat.max_eq_left (Nat.one_le_iff_ne_zero.mpr h0)
  have hcounts : ((t0 :: ts).map
      ((fun e : EquipmentDemandSupply => e.demand) ∘ equipEntry d s)) =
      ((t0 :: ts).map fun eq => lookupCount d eq).map
        (fun n : ℕ => pyRound ((n : ℚ) /
          ((max ((d.map (·.2)).sum) 1 : ℕ) : ℚ) * 100)) := by
    rw [List.map_map]
    rfl
  rw [hcounts]
  have hlen : ((t0 :: ts).map fun eq => lookupCount d eq).length =
      (t0 :: ts).length := List.length_map _ _
  rw [← hlen]
  apply pct_sum_master _ _ _ (by rw [hmax]; exact h0)
  rw [hmax]
  exact sum_lookupCount d (t0 :: ts) hd (hr ▸ sortedUnionKeys_nodup d s)
    (fun k hk => hr ▸ mem_sortedUnionKeys_left d s k hk)

/-- The supply-percentage family of a nonzero-total supply source sums
to 100 up to (buckets − 1). -/
theorem equipment_supply_sum_bound (d s : List (String × Nat))
    (hs : (s.map Prod.fst).Nodup) (h0 : (s.map (·.2)).sum ≠ 0) :
    |(((equipmentDemandSupply d s).map (·.supply)).sum) - 100| ≤
      ((equipmentDemandSupply d s).length : ℤ) - 1 := by
  have hsne : s ≠ [] := by
    intro h
    rw [h] at h0
    exact h0 rfl
  obtain ⟨⟨k0, v0⟩, s', rfl⟩ : ∃ p s', s = p :: s' := by
    cases s with
    | nil => exact absurd rfl hsne
    | cons p s' => exact ⟨p, s', rfl⟩
  have hmem : k0 ∈ sortedUnionKeys d ((k0, v0) :: s') :=
    mem_sortedUnionKeys_right _ _ _ (by simp)
  obtain ⟨t0, ts, hr⟩ : ∃ t0 ts,
      sortedUnionKeys d ((k0, v0) :: s') = t0 :: ts := by
    cases hu : sortedUnionKeys d ((k0, v0) :: s') with
    | nil => rw [hu] at hmem; cases hmem
    | cons t0 ts => exact ⟨t0, ts, rfl⟩
  set s := (k0, v0) :: s' with hs_eq
  rw [equipmentDemandSupply_eq' d s t0 ts hr]
  rw [map_sum_insertionSort, List.length_insertionSort, List.map_map,
    List.length_map]
  have hmax : max ((s.map (·.2)).sum) 1 = (s.map (·.2)).sum :=
    Nat.max_eq_left (Nat.one_le_iff_ne_zero.mpr h0)
  have hcounts : ((t0 :: ts).map
      ((fun e : EquipmentDemandSupply => e.supply) ∘ equipEntry d s)) =
      ((t0 :: ts).map fun eq => lookupCount s eq).map
        (fun n : ℕ => pyRound ((n : ℚ) /
          ((max ((s.map (·.2)).sum) 1 : ℕ) : ℚ) * 100)) := by
    rw [List.map_map]
    rfl
  rw [hcounts]
  have hlen : ((t0 :: ts).map fun eq => lookupCount s eq).length =
      (t0 :: ts).length := List.length_map _ _
  rw [← hlen]
  apply pct_sum_master _ _ _ (by rw [hmax]; exact h0)
  rw [hmax]
  exact sum_lookupCount s (t0 :: ts) hs (hr ▸ sortedUnionKeys_nodup d s)
    (fun k hk => hr ▸ mem_sortedUnionKeys_right d s k hk)

/-- The negotiation-depth percentages sum to 100 up to (buckets − 1). -/
theorem negotiation_depth_sum_bound (booked : List CallRow)
    (hne : booked ≠ []) :
    |(((negotiationDepth booked).map (·.pct)).sum) - 100| ≤
      ((negotiationDepth booked).length : ℤ) - 1 := by
  cases booked with
  | nil => exact absurd rfl hne
  | cons c rest =>
    rw [negotiationDepth_cons, List.map_map, List.length_map]
    set B := (c :: rest).foldl (fun acc x => bump acc (depthKey x)) [] with hB
    simp only [sortByKey]
    rw [map_sum_insertionSort, List.length_insertionSort]
    have hconv : (B.map ((fun b : NegotiationDepthBucket => b.pct) ∘
        (fun p => ⟨depthLabel p.1,
          pyRound ((p.2 : ℚ) / (((B.map (·.2)).sum : ℕ) : ℚ) * 100)⟩))) =
        (B.map (·.2)).map
          (fun n : ℕ => pyRound ((n : ℚ) /
            (((B.map (·.2)).sum : ℕ) : ℚ) * 100)) := by
      rw [List.map_map]
      rfl
    rw [hconv, ← List.length_map B (·.2)]
    apply pct_sum_master _ _ rfl
    exact sum_pos_of_allPos (hB ▸ depthBuckets_allPos (c :: rest))
      (hB ▸ depthBuckets_ne_nil c rest)

/-- The carrier-objection percentages sum to 100 up to (buckets − 1). -/
theorem carrier_objections_sum_bound (failed all_calls : List CallRow)
    (hne : carrierObjections failed all_calls ≠ []) :
    |(((carrierObjections failed all_calls).map (·.pct)).sum) - 100| ≤
      ((carrierObjections failed all_calls).length : ℤ) - 1 := by
  cases hr : all_calls.foldl objectionStepAll
      (failed.foldl objectionStepFailed []) with
  | nil => exact absurd (carrierObjections_nil_of failed all_calls hr) hne
  | cons r0 rs =>
    rw [carrierObjections_eq failed all_calls r0 rs hr,
      List.map_map, List.length_map]
    simp only [mostCommon]
    rw [map_sum_insertionSort, List.length_insertionSort]
    have hconv : ((r0 :: rs).map ((fun o : CarrierObjection => o.pct) ∘
        (fun p => ⟨p.1, p.2,
          pyRound ((p.2 : ℚ) /
            ((((r0 :: rs).map (·.2)).sum : ℕ) : ℚ) * 100)⟩))) =
        ((r0 :: rs).map (·.2)).map
          (fun n : ℕ => pyRound ((n : ℚ) /
            ((((r0 :: rs).map (·.2)).sum : ℕ) : ℚ) * 100)) := by
      rw [List.map_map]
      rfl
    rw [hconv, ← List.length_map (r0 :: rs) (·.2)]
    apply pct_sum_master _ _ rfl
    exact sum_pos_of_allPos (hr ▸ objections_allPos failed all_calls)
      (List.cons_ne_nil _ _)

/-- Claim C4 (amended): each percentage *family* sums to 100 within
(number of buckets − 1): the single family of negotiation depth (input
non-empty) and of carrier objections (some recognized outcome present,
i.e. non-empty output), and the demand and supply families of the
equipment list, each only when that family's own input total is nonzero
(keys of the grouped dicts being distinct). A family whose total is zero
is emitted as all-zero percentages and sums to 0, not 100 (see the
counterexample). -/
theorem C4_pct_family_sums :
    (∀ booked : List CallRow, booked ≠ [] →
      |(((negotiationDepth booked).map (·.pct)).sum) - 100| ≤
        ((negotiationDepth booked).length : ℤ) - 1) ∧
    (∀ failed all_calls : List CallRow,
      carrierObjections failed all_calls ≠ [] →
      |(((carrierObjections failed all_calls).map (·.pct)).sum) - 100| ≤
        ((carrierObjections failed all_calls).length : ℤ) - 1) ∧
    (∀ d s : List (String × Nat), (d.map Prod.fst).Nodup →
      (d.map (·.2)).sum ≠ 0 →
      |(((equipmentDemandSupply d s).map (·.demand)).sum) - 100| ≤
        ((equipmentDemandSupply d s).length : ℤ) - 1) ∧
    (∀ d s : List (String × Nat), (s.map Prod.fst).Nodup →
      (s.map (·.2)).sum ≠ 0 →
      |(((equipmentDemandSupply d s).map (·.supply)).sum) - 100| ≤
        ((equipmentDemandSupply d s).length : ℤ) - 1) :=
  ⟨negotiation_depth_sum_bound, carrier_objections_sum_bound,
   equipment_demand_sum_bound, equipment_supply_sum_bound⟩

/-- Counterexample to C4 as stated, under either reading of "the
percentages within the single returned list". Per family: with no
available load and one recent reefer call — a non-empty input — the list
is `[{Reefer, demand 0, supply 100}]` and the demand percentages sum to
0, not 100 ± (1 − 1). All percentages of the list together: with one
reefer load and one reefer call the list is `[{Reefer, 100, 100}]` and
the percentages sum to 200, again not 100 ± (1 − 1). -/
theorem C4_pct_family_sums_cex :
    (equipmentDemandSupply [] [("reefer", 1)] = [⟨"Reefer", 0, 100⟩] ∧
     ¬(|(((equipmentDemandSupply [] [("reefer", 1)]).map (·.demand)).sum) -
        100| ≤ ((equipmentDemandSupply [] [("reefer", 1)]).length : ℤ) - 1)) ∧
    (equipmentDemandSupply [("reefer", 1)] [("reefer", 1)] =
        [⟨"Reefer", 100, 100⟩] ∧
     ¬(|(((equipmentDemandSupply [("reefer", 1)] [("reefer", 1)]).map
          (fun e => e.demand + e.supply)).sum) - 100| ≤
        ((equipmentDemandSupply [("reefer", 1)] [("reefer", 1)]).length : ℤ)
          - 1)) := by
  have he : equipmentDemandSupply [] [("reefer", 1)] = [⟨"Reefer", 0, 100⟩] := by
    have hr : sortedUnionKeys [] [("reefer", 1)] = ["reefer"] := rfl
    rw [equipmentDemandSupply_eq' _ _ _ _ hr]
    have hfe : formatEquip "reefer" = "Reefer" := rfl
    simp [equipEntry, lookupCount, hfe]
    norm_num [pyRound_zero, pyRound_ofNat]
  have he2 : equipmentDemandSupply [("reefer", 1)] [("reefer", 1)] =
      [⟨"Reefer", 100, 100⟩] := by
    have hr : sortedUnionKeys [("reefer", 1)] [("reefer", 1)] = ["reefer"] :=
      rfl
    rw [equipmentDemandSupply_eq' _ _ _ _ hr]
    have hfe : formatEquip "reefer" = "Reefer" := rfl
    simp [equipEntry, lookupCount, hfe]
    norm_num [pyRound_ofNat]
  refine ⟨⟨he, ?_⟩, ⟨he2, ?_⟩⟩
  · rw [he]
    decide
  · rw [he2]
    decide

/-- Witness for C4 at small concrete inputs. -/
theorem C4_pct_family_sums_witness :
    (|(((negotiationDepth
        [⟨"booked", some 1, none, none, none, none, none⟩]).map (·.pct)).sum) -
        100| ≤ ((negotiationDepth
          [⟨"booked", some 1, none, none, none, none, none⟩]).length : ℤ) - 1) ∧
    (|(((carrierObjections
        [⟨"negotiation_failed", none, none, none, none, none, none⟩]
        []).map (·.pct)).sum) - 100| ≤
      ((carrierObjections
        [⟨"negotiation_failed", none, none, none, none, none, none⟩]
        []).length : ℤ) - 1) ∧
    (|(((equipmentDemandSupply [("reefer", 2)] []).map (·.demand)).sum) -
        100| ≤ ((equipmentDemandSupply [("reefer", 2)] []).length : ℤ) - 1) ∧
    (|(((equipmentDemandSupply [] [("reefer", 2)]).map (·.supply)).sum) -
        100| ≤ ((equipmentDemandSupply [] [("reefer", 2)]).length : ℤ) - 1) := by
  have hobj : carrierObjections
      [⟨"negotiation_failed", none, none, none, none, none, none⟩] [] ≠ [] := by
    have hr : ([] : List CallRow).foldl objectionStepAll
        (([⟨"negotiation_failed", none, none, none, none, none, none⟩] :
          List CallRow).foldl objectionStepFailed []) =
        [("Rate too low", 1)] := rfl
    rw [carrierObjections_eq _ _ _ _ hr]
    simp [mostCommon]
  exact ⟨C4_pct_family_sums.1 _ (List.cons_ne_nil _ _),
    C4_pct_family_sums.2.1 _ _ hobj,
    C4_pct_family_sums.2.2.1 _ _ (by simp) (by simp),
    C4_pct_family_sums.2.2.2 _ _ (by simp) (by simp)⟩

/-! ## Carrier objections (C5, C10) -/

theorem sorted_mostCommon {α : Type} (l : List (α × Nat)) :
    (mostCommon l).Sorted fun a b => b.2 ≤ a.2 := by
  letI : IsTotal (α × Nat) fun a b => b.2 ≤ a.2 := ⟨fun a b => le_total b.2 a.2⟩
  letI : IsTrans (α × Nat) fun a b => b.2 ≤ a.2 :=
    ⟨fun _ _ _ hab hbc => le_trans hbc hab⟩
  exact List.sorted_insertionSort _ l

/-- Claim C5: the objection mapping, counting, stable descending order and
pct formula, with the spec's concrete example: 2 `negotiation_failed`,
1 `dropped_call`, 1 `no_loads_available` yield exactly
`[(Rate too low, 2, 50), (Call dropped, 1, 25), (No matching loads, 1, 25)]`,
and in general the output is in descending count order with
`pct = round(count/total*100)` over the total of the emitted counts. -/
theorem C5_carrier_objections :
    (carrierObjections
        [⟨"negotiation_failed", none, none, none, none, none, none⟩,
         ⟨"negotiation_failed", none, none, none, none, none, none⟩,
         ⟨"dropped_call", none, none, none, none, none, none⟩]
        [⟨"negotiation_failed", none, none, none, none, none, none⟩,
         ⟨"negotiation_failed", none, none, none, none, none, none⟩,
         ⟨"dropped_call", none, none, none, none, none, none⟩,
         ⟨"no_loads_available", none, none, none, none, none, none⟩] =
      [⟨"Rate too low", 2, 50⟩, ⟨"Call dropped", 1, 25⟩,
       ⟨"No matching loads", 1, 25⟩]) ∧
    (∀ failed all_calls : List CallRow,
      (carrierObjections failed all_calls).Sorted fun a b =>
        b.count ≤ a.count) ∧
    (∀ failed all_calls : List CallRow,
      ∀ o ∈ carrierObjections failed all_calls,
        o.pct = pyRound ((o.count : ℚ) /
          (((((carrierObjections failed all_calls).map (·.count)).sum) : ℕ) : ℚ)
            * 100)) := by
  refine ⟨?_, ?_, ?_⟩
  · have hr : (([⟨"negotiation_failed", none, none, none, none, none, none⟩,
        ⟨"negotiation_failed", none, none, none, none, none, none⟩,
        ⟨"dropped_call", none, none, none, none, none, none⟩,
        ⟨"no_loads_available", none, none, none, none, none, none⟩] :
          List CallRow)).foldl objectionStepAll
        (([⟨"negotiation_failed", none, none, none, none, none, none⟩,
          ⟨"negotiation_failed", none, none, none, none, none, none⟩,
          ⟨"dropped_call", none, none, none, none, none, none⟩] :
            List CallRow).foldl objectionStepFailed []) =
        [("Rate too low", 2), ("Call dropped", 1), ("No matching loads", 1)] :=
      rfl
    rw [carrierObjections_eq _ _ _ _ hr]
    have hmc : mostCommon [("Rate too low", 2), ("Call dropped", 1),
        ("No matching loads", 1)] =
        [("Rate too low", 2), ("Call dropped", 1), ("No matching loads", 1)] :=
      rfl
    rw [hmc]
    norm_num [pyRound_ofNat]
  · intro failed all_calls
    cases hr : all_calls.foldl objectionStepAll
        (failed.foldl objectionStepFailed []) with
    | nil => rw [carrierObjections_nil_of failed all_calls hr]; exact List.sorted_nil
    | cons r0 rs =>
      rw [carrierObjections_eq failed all_calls r0 rs hr]
      exact List.Pairwise.map _ (fun a b h => h) (sorted_mostCommon (r0 :: rs))
  · intro failed all_calls o ho
    cases hr : all_calls.foldl objectionStepAll
        (failed.foldl objectionStepFailed []) with
    | nil =>
      rw [carrierObjections_nil_of failed all_calls hr] at ho
      cases ho
    | cons r0 rs =>
      rw [carrierObjections_eq failed all_calls r0 rs hr] at ho ⊢
      have hsum : ((((mostCommon (r0 :: rs)).map (fun p =>
          (⟨p.1, p.2, pyRound ((p.2 : ℚ) /
            ((((r0 :: rs).map (·.2)).sum : ℕ) : ℚ) * 100)⟩ :
              CarrierObjection))).map (·.count)).sum) =
          ((r0 :: rs).map (·.2)).sum := by
        rw [List.map_map]
        simp only [mostCommon]
        exact map_sum_insertionSort _ _ _
      rw [hsum]
      obtain ⟨p, hp, rfl⟩ := List.mem_map.mp ho
      rfl

/-- Witness for C5's pct formula at the spec's concrete example. -/
theorem C5_carrier_objections_witness :
    (⟨"Rate too low", 2, 50⟩ : CarrierObjection).pct =
      pyRound ((((⟨"Rate too low", 2, 50⟩ : CarrierObjection).count : ℕ) : ℚ) /
        (((((carrierObjections
          [⟨"negotiation_failed", none, none, none, none, none, none⟩,
           ⟨"negotiation_failed", none, none, none, none, none, none⟩,
           ⟨"dropped_call", none, none, none, none, none, none⟩]
          [⟨"negotiation_failed", none, none, none, none, none, none⟩,
           ⟨"negotiation_failed", none, none, none, none, none, none⟩,
           ⟨"dropped_call", none, none, none, none, none, none⟩,
           ⟨"no_loads_available", none, none, none, none, none, none⟩]).map
            (·.count)).sum) : ℕ) : ℚ) * 100) := by
  apply C5_carrier_objections.2.2
  rw [C5_carrier_objections.1]
  simp

/-! ## Negotiation depth (C6) -/

theorem keys_bump {α : Type} [DecidableEq α] (l : List (α × Nat)) (k : α) :
    (bump l k).map Prod.fst =
      if k ∈ l.map Prod.fst then l.map Prod.fst
      else l.map Prod.fst ++ [k] := by
  induction l with
  | nil => simp [bump]
  | cons p rest ih =>
    obtain ⟨k', n⟩ := p
    by_cases h : k' = k
    · subst h
      simp [bump]
    · have hne : ¬(k = k') := fun he => h he.symm
      simp only [bump, if_neg h, List.map_cons, List.mem_cons, ih]
      by_cases hm : k ∈ rest.map Prod.fst <;> simp [hm, hne]

theorem nodup_keys_bump {α : Type} [DecidableEq α] (l : List (α × Nat))
    (k : α) (h : (l.map Prod.fst).Nodup) :
    ((bump l k).map Prod.fst).Nodup := by
  rw [keys_bump]
  by_cases hm : k ∈ l.map Prod.fst
  · simpa [hm] using h
  · rw [if_neg hm]
    apply List.Nodup.append h (List.nodup_singleton k)
    intro a ha hak
    rw [List.mem_singleton] at hak
    exact hm (hak ▸ ha)

/-- A property preserved by every step of a fold holds of its result. -/
theorem foldl_invariant {σ β : Type} (P : σ → Prop) (step : σ → β → σ)
    (hstep : ∀ acc x, P acc → P (step acc x)) :
    ∀ (xs : List β) (init : σ), P init → P (xs.foldl step init)
  | [], _, h => h
  | x :: xs, init, h =>
    foldl_invariant P step hstep xs (step init x) (hstep init x h)

theorem depthBuckets_keys_le (booked : List CallRow) :
    ∀ p ∈ booked.foldl (fun acc c => bump acc (depthKey c)) [], p.1 ≤ 3 := by
  refine foldl_invariant (fun acc : List (ℕ × ℕ) => ∀ p ∈ acc, p.1 ≤ 3)
    (fun acc c => bump acc (depthKey c)) ?_ booked [] ?_
  · intro acc c hacc p hp
    have hkle : depthKey c ≤ 3 := min_le_right _ _
    have := keys_bump acc (depthKey c)
    have hmem : p.1 ∈ (bump acc (depthKey c)).map Prod.fst :=
      List.mem_map_of_mem Prod.fst hp
    rw [this] at hmem
    by_cases hm : depthKey c ∈ acc.map Prod.fst
    · rw [if_pos hm] at hmem
      obtain ⟨q, hq, hqe⟩ := List.mem_map.mp hmem
      exact hqe ▸ hacc q hq
    · rw [if_neg hm] at hmem
      rcases List.mem_append.mp hmem with hmm | hmm
      · obtain ⟨q, hq, hqe⟩ := List.mem_map.mp hmm
        exact hqe ▸ hacc q hq
      · simp at hmm
        exact hmm ▸ hkle
  · intro p hp
    cases hp

theorem depthBuckets_keys_nodup (booked : List CallRow) :
    ((booked.foldl (fun acc c => bump acc (depthKey c)) []).map
      Prod.fst).Nodup := by
  refine foldl_invariant (fun acc : List (ℕ × ℕ) => (acc.map Prod.fst).Nodup)
    (fun acc c => bump acc (depthKey c)) ?_ booked [] ?_
  · intro acc c hacc
    exact nodup_keys_bump acc (depthKey c) hacc
  · simp

/-- The rank of a depth label, inverse to `depthLabel` on `0..3`. -/
def labelRank (s : String) : Nat :=
  if s = "1st offer" then 0
  else if s = "1 round" then 1
  else if s = "2 rounds" then 2
  else 3

theorem labelRank_depthLabel (k : Nat) (h : k ≤ 3) :
    labelRank (depthLabel k) = k := by
  match k, h with
  | 0, _ => rfl
  | 1, _ => rfl
  | 2, _ => rfl
  | 3, _ => rfl

theorem depthLabel_mem (k : Nat) (h : k ≤ 3) :
    depthLabel k ∈ ["1st offer", "1 round", "2 rounds", "3 rounds (max)"] := by
  match k, h with
  | 0, _ => simp [depthLabel]
  | 1, _ => simp [depthLabel]
  | 2, _ => simp [depthLabel]
  | 3, _ => simp [depthLabel]

theorem sorted_sortByKey (l : List (Nat × Nat)) :
    (sortByKey l).Sorted fun a b => a.1 ≤ b.1 := by
  letI : IsTotal (ℕ × ℕ) fun a b => a.1 ≤ b.1 := ⟨fun a b => le_total a.1 b.1⟩
  letI : IsTrans (ℕ × ℕ) fun a b => a.1 ≤ b.1 :=
    ⟨fun _ _ _ hab hbc => le_trans hab hbc⟩
  exact List.sorted_insertionSort _ l

/-- Claim C6: bucketing is `min(rounds, 3)` with null treated as 0, so a
booked call with 5 rounds is indistinguishable from one with 3 (the
output depends only on the per-call depth keys); emitted buckets carry
only the four fixed labels and appear in strictly ascending depth
order. -/
theorem C6_negotiation_depth_buckets :
    (∀ c : CallRow, c.negotiation_rounds = none → depthKey c = 0) ∧
    (∀ c c' : CallRow, c.negotiation_rounds = some 5 →
      c'.negotiation_rounds = some 3 →
      depthKey c = depthKey c' ∧ depthLabel (depthKey c) = "3 rounds (max)") ∧
    (∀ booked booked' : List CallRow,
      booked.map depthKey = booked'.map depthKey →
      negotiationDepth booked = negotiationDepth booked') ∧
    (∀ booked : List CallRow, ∀ b ∈ negotiationDepth booked,
      b.bucketRound ∈ ["1st offer", "1 round", "2 rounds", "3 rounds (max)"]) ∧
    (∀ booked : List CallRow,
      ((negotiationDepth booked).map fun b => labelRank b.bucketRound).Sorted
        (· < ·)) := by
  refine ⟨?_, ?_, ?_, ?_, ?_⟩
  · intro c h
    simp [depthKey, h]
  · intro c c' h h'
    constructor
    · simp [depthKey, h, h']
    · simp [depthKey, h]
      rfl
  · intro booked booked' h
    cases booked with
    | nil =>
      cases booked' with
      | nil => rfl
      | cons c' rest' => simp at h
    | cons c rest =>
      cases booked' with
      | nil => simp at h
      | cons c' rest' =>
        rw [negotiationDepth_cons, negotiationDepth_cons]
        have hb : (c :: rest).foldl (fun acc x => bump acc (depthKey x)) [] =
            (c' :: rest').foldl (fun acc x => bump acc (depthKey x)) [] := by
          rw [← List.foldl_map depthKey bump, ← List.foldl_map depthKey bump, h]
        rw [hb]
  · intro booked b hb
    cases booked with
    | nil => cases hb
    | cons c rest =>
      rw [negotiationDepth_cons] at hb
      obtain ⟨p, hp, rfl⟩ := List.mem_map.mp hb
      have hpB : p ∈ (c :: rest).foldl (fun acc x => bump acc (depthKey x)) [] := by
        have := (List.perm_insertionSort
          (fun a b : ℕ × ℕ => a.1 ≤ b.1) _).mem_iff.mp hp
        exact this
      exact depthLabel_mem p.1 (depthBuckets_keys_le (c :: rest) p hpB)
  · intro booked
    cases booked with
    | nil => exact List.sorted_nil
    | cons c rest =>
      rw [negotiationDepth_cons, List.map_map]
      set B := (c :: rest).foldl (fun acc x => bump acc (depthKey x)) [] with hB
      have hmapeq : ((sortByKey B).map ((fun b : NegotiationDepthBucket =>
          labelRank b.bucketRound) ∘ (fun p => ⟨depthLabel p.1,
            pyRound ((p.2 : ℚ) / (((B.map (·.2)).sum : ℕ) : ℚ) * 100)⟩))) =
          (sortByKey B).map Prod.fst := by
        apply List.map_congr_left
        intro p hp
        have hpB : p ∈ B :=
          (List.perm_insertionSort (fun a b : ℕ × ℕ => a.1 ≤ b.1) _).mem_iff.mp hp
        exact labelRank_depthLabel p.1 (depthBuckets_keys_le (c :: rest) p
          (hB ▸ hpB))
      rw [hmapeq]
      have hsorted : (sortByKey B).Sorted fun a b => a.1 ≤ b.1 :=
        sorted_sortByKey B
      have hnodup : ((sortByKey B).map Prod.fst).Nodup := by
        have hperm : List.Perm ((sortByKey B).map Prod.fst)
            (B.map Prod.fst) :=
          (List.perm_insertionSort (fun a b : ℕ × ℕ => a.1 ≤ b.1) B).map _
        exact hperm.nodup_iff.mpr (hB ▸ depthBuckets_keys_nodup (c :: rest))
      have hpair : (sortByKey B).Pairwise fun a b => a.1 < b.1 := by
        have hne : (sortByKey B).Pairwise fun a b => a.1 ≠ b.1 :=
          List.pairwise_map.mp hnodup
        exact (hsorted.and hne).imp fun h => lt_of_le_of_ne h.1 h.2
      exact List.Pairwise.map _ (fun a b h => h) hpair

/-- Witness for C6: a 5-round booked call lands in "3 rounds (max)" and
behaves exactly like a 3-round one. -/
theorem C6_negotiation_depth_buckets_witness :
    depthKey ⟨"booked", none, none, none, none, none, none⟩ = 0 ∧
    (depthKey ⟨"booked", some 5, none, none, none, none, none⟩ =
      depthKey ⟨"booked", some 3, none, none, none, none, none⟩ ∧
     depthLabel (depthKey ⟨"booked", some 5, none, none, none, none, none⟩) =
      "3 rounds (max)") ∧
    negotiationDepth [⟨"booked", some 5, none, none, none, none, none⟩] =
      negotiationDepth [⟨"booked", some 3, none, none, none, none, none⟩] ∧
    (⟨"3 rounds (max)", 100⟩ : NegotiationDepthBucket).bucketRound ∈
      ["1st offer", "1 round", "2 rounds", "3 rounds (max)"] ∧
    ((negotiationDepth
      [⟨"booked", some 5, none, none, none, none, none⟩]).map
        fun b => labelRank b.bucketRound).Sorted (· < ·) := by
  have hnd : negotiationDepth
      [⟨"booked", some 5, none, none, none, none, none⟩] =
      [⟨"3 rounds (max)", 100⟩] := by
    rw [negotiationDepth_cons]
    norm_num [sortByKey, depthKey, depthLabel, bump, pyRound_ofNat]
  exact ⟨C6_negotiation_depth_buckets.1 _ rfl,
    C6_negotiation_depth_buckets.2.1 _ _ rfl rfl,
    C6_negotiation_depth_buckets.2.2.1 _ _ rfl,
    C6_negotiation_depth_buckets.2.2.2.1 _ _ (by rw [hnd]; simp),
    C6_negotiation_depth_buckets.2.2.2.2 _⟩

/-! ## Equipment demand/supply (C9) -/

theorem lookupCount_le_sum {α : Type} [DecidableEq α]
    (l : List (α × Nat)) (k : α) : lookupCount l k ≤ (l.map (·.2)).sum := by
  induction l with
  | nil => exact le_refl 0
  | cons p rest ih =>
    obtain ⟨k', n⟩ := p
    by_cases h : k' = k
    · simp [lookupCount, h]
    · simp only [lookupCount, if_neg h, List.map_cons, List.sum_cons]
      omega

/-- Claim C9: each percentage is normalized against its own total, a zero
total yields all-zero percentages on that side (division guarded, no
crash), and the list is ordered descending by demand; concretely, one
available dry_van load plus one recent reefer call and one recent dry_van
call give `[{Dry Van, demand 100, supply 50}, {Reefer, demand 0,
supply 50}]` — zero available reefers, nonzero reefer calls, `demand = 0`
with a nonzero supply share. -/
theorem C9_equipment_demand_supply :
    (equipmentDemandSupply [("dry_van", 1)] [("dry_van", 1), ("reefer", 1)] =
      [⟨"Dry Van", 100, 50⟩, ⟨"Reefer", 0, 50⟩]) ∧
    (∀ d s : List (String × Nat),
      (equipmentDemandSupply d s).Sorted fun a b => b.demand ≤ a.demand) ∧
    (∀ d s : List (String × Nat), (d.map (·.2)).sum = 0 →
      ∀ e ∈ equipmentDemandSupply d s, e.demand = 0) ∧
    (∀ d s : List (String × Nat), (s.map (·.2)).sum = 0 →
      ∀ e ∈ equipmentDemandSupply d s, e.supply = 0) := by
  have hmem_entry : ∀ (d s : List (String × Nat)) (e : EquipmentDemandSupply),
      e ∈ equipmentDemandSupply d s → ∃ t, e = equipEntry d s t := by
    intro d s e he
    cases hr : sortedUnionKeys d s with
    | nil =>
      unfold equipmentDemandSupply at he
      rw [hr] at he
      cases he
    | cons t0 ts =>
      rw [equipmentDemandSupply_eq' d s t0 ts hr] at he
      have := (List.perm_insertionSort
        (fun a b : EquipmentDemandSupply => b.demand ≤ a.demand) _).mem_iff.mp he
      obtain ⟨t, _, hte⟩ := List.mem_map.mp this
      exact ⟨t, hte.symm⟩
  refine ⟨?_, ?_, ?_, ?_⟩
  · have hr : sortedUnionKeys [("dry_van", 1)] [("dry_van", 1), ("reefer", 1)] =
        ["dry_van", "reefer"] := by
      simp [sortedUnionKeys, List.insertionSort, List.orderedInsert]
      decide
    rw [equipmentDemandSupply_eq' _ _ _ _ hr]
    have h1 : formatEquip "dry_van" = "Dry Van" := rfl
    have h2 : formatEquip "reefer" = "Reefer" := rfl
    have ha : lookupCount [("dry_van", 1)] "dry_van" = 1 := rfl
    have hb : lookupCount [("dry_van", 1)] "reefer" = 0 := rfl
    have hc : lookupCount [("dry_van", 1), ("reefer", 1)] "dry_van" = 1 := rfl
    have hd : lookupCount [("dry_van", 1), ("reefer", 1)] "reefer" = 1 := rfl
    norm_num [equipEntry, ha, hb, hc, hd, h1, h2, pyRound_ofNat, pyRound_zero]
  · intro d s
    cases hr : sortedUnionKeys d s with
    | nil =>
      unfold equipmentDemandSupply
      rw [hr]
      exact List.sorted_nil
    | cons t0 ts =>
      rw [equipmentDemandSupply_eq' d s t0 ts hr]
      letI : IsTotal EquipmentDemandSupply fun a b => b.demand ≤ a.demand :=
        ⟨fun a b => le_total b.demand a.demand⟩
      letI : IsTrans EquipmentDemandSupply fun a b => b.demand ≤ a.demand :=
        ⟨fun _ _ _ hab hbc => le_trans hbc hab⟩
      exact List.sorted_insertionSort _ _
  · intro d s h0 e he
    obtain ⟨t, rfl⟩ := hmem_entry d s e he
    have hl : lookupCount d t = 0 :=
      Nat.le_zero.mp (h0 ▸ lookupCount_le_sum d t)
    simp only [equipEntry, hl]
    norm_num [pyRound_zero]
  · intro d s h0 e he
    obtain ⟨t, rfl⟩ := hmem_entry d s e he
    have hl : lookupCount s t = 0 :=
      Nat.le_zero.mp (h0 ▸ lookupCount_le_sum s t)
    simp only [equipEntry, hl]
    norm_num [pyRound_zero]

/-- Witness for C9 at concrete grouped counts. -/
theorem C9_equipment_demand_supply_witness :
    ((equipmentDemandSupply [("reefer", 0)] [("reefer", 2)]).Sorted
      fun a b => b.demand ≤ a.demand) ∧
    (⟨"Reefer", 0, 100⟩ : EquipmentDemandSupply).demand = 0 ∧
    (⟨"Reefer", 100, 0⟩ : EquipmentDemandSupply).supply = 0 := by
  have h1 : equipmentDemandSupply [("reefer", 0)] [("reefer", 2)] =
      [⟨"Reefer", 0, 100⟩] := by
    have hr : sortedUnionKeys [("reefer", 0)] [("reefer", 2)] = ["reefer"] :=
      rfl
    rw [equipmentDemandSupply_eq' _ _ _ _ hr]
    have hfe : formatEquip "reefer" = "Reefer" := rfl
    norm_num [equipEntry, lookupCount, hfe, pyRound_ofNat, pyRound_zero]
  have h2 : equipmentDemandSupply [("reefer", 2)] [("reefer", 0)] =
      [⟨"Reefer", 100, 0⟩] := by
    have hr : sortedUnionKeys [("reefer", 2)] [("reefer", 0)] = ["reefer"] :=
      rfl
    rw [equipmentDemandSupply_eq' _ _ _ _ hr]
    have hfe : formatEquip "reefer" = "Reefer" := rfl
    norm_num [equipEntry, lookupCount, hfe, pyRound_ofNat, pyRound_zero]
  refine ⟨C9_equipment_demand_supply.2.1 _ _, ?_, ?_⟩
  · exact C9_equipment_demand_supply.2.2.1 [("reefer", 0)] [("reefer", 2)]
      rfl _ (by rw [h1]; simp)
  · exact C9_equipment_demand_supply.2.2.2 [("reefer", 2)] [("reefer", 0)]
      rfl _ (by rw [h2]; simp)

/-! ## Objection scope (C10) -/

theorem sum_foldl_objectionStepFailed :
    ∀ (failed : List CallRow) (init : List (String × Nat)),
      ((failed.foldl objectionStepFailed init).map (·.2)).sum =
        (init.map (·.2)).sum +
          (failed.filter fun c => decide (c.outcome = "negotiation_failed") ||
            decide (c.outcome = "dropped_call")).length
  | [], init => by simp
  | c :: rest, init => by
    rw [List.foldl_cons]
    rw [sum_foldl_objectionStepFailed rest (objectionStepFailed init c)]
    by_cases h1 : c.outcome = "negotiation_failed"
    · simp [objectionStepFailed, h1, sum_bump, List.filter_cons]
      omega
    · by_cases h2 : c.outcome = "dropped_call"
      · simp [objectionStepFailed, h1, h2, sum_bump, List.filter_cons]
        omega
      · simp [objectionStepFailed, h1, h2, List.filter_cons]

theorem sum_foldl_objectionStepAll :
    ∀ (all_calls : List CallRow) (init : List (String × Nat)),
      ((all_calls.foldl objectionStepAll init).map (·.2)).sum =
        (init.map (·.2)).sum +
          (all_calls.filter fun c =>
            decide (c.outcome = "no_loads_available")).length
  | [], init => by simp
  | c :: rest, init => by
    rw [List.foldl_cons]
    rw [sum_foldl_objectionStepAll rest (objectionStepAll init c)]
    by_cases h1 : c.outcome = "no_loads_available"
    · simp [objectionStepAll, h1, sum_bump, List.filter_cons]
      omega
    · simp [objectionStepAll, h1, List.filter_cons]

/-- The emitted counts sum to the number of recognized calls. -/
theorem carrierObjections_count_sum (failed all_calls : List CallRow) :
    (((carrierObjections failed all_calls).map (·.count)).sum) =
      (failed.filter fun c => decide (c.outcome = "negotiation_failed") ||
        decide (c.outcome = "dropped_call")).length +
      (all_calls.filter fun c =>
        decide (c.outcome = "no_loads_available")).length := by
  have hsum : ((all_calls.foldl objectionStepAll
      (failed.foldl objectionStepFailed [])).map (·.2)).sum =
      (failed.filter fun c => decide (c.outcome = "negotiation_failed") ||
        decide (c.outcome = "dropped_call")).length +
      (all_calls.filter fun c =>
        decide (c.outcome = "no_loads_available")).length := by
    rw [sum_foldl_objectionStepAll, sum_foldl_objectionStepFailed]
    simp
  cases hr : all_calls.foldl objectionStepAll
      (failed.foldl objectionStepFailed []) with
  | nil =>
    rw [carrierObjections_nil_of failed all_calls hr]
    rw [hr] at hsum
    simp only [List.map_nil, List.sum_nil] at hsum ⊢
    exact hsum
  | cons r0 rs =>
    rw [carrierObjections_eq failed all_calls r0 rs hr]
    rw [hr] at hsum
    rw [List.map_map]
    have : ((mostCommon (r0 :: rs)).map ((fun o : CarrierObjection =>
        o.count) ∘ (fun p => ⟨p.1, p.2, pyRound ((p.2 : ℚ) /
          ((((r0 :: rs).map (·.2)).sum : ℕ) : ℚ) * 100)⟩))) =
        (mostCommon (r0 :: rs)).map (·.2) := rfl
    rw [this]
    simp only [mostCommon]
    rw [map_sum_insertionSort]
    exact hsum

/-- Claim C10: calls in the failed/dropped input with any other outcome
contribute nothing to the objection counts; a call without outcome
`no_loads_available` contributes nothing through the all-calls input;
and the counts (hence the pct denominator, which C5 shows is the sum of
the emitted counts) range exactly over the recognized calls. -/
theorem C10_objections_scope :
    (∀ (l1 l2 all_calls : List CallRow) (c : CallRow),
      c.outcome ≠ "negotiation_failed" → c.outcome ≠ "dropped_call" →
      carrierObjections (l1 ++ c :: l2) all_calls =
        carrierObjections (l1 ++ l2) all_calls) ∧
    (∀ (failed l1 l2 : List CallRow) (c : CallRow),
      c.outcome ≠ "no_loads_available" →
      carrierObjections failed (l1 ++ c :: l2) =
        carrierObjections failed (l1 ++ l2)) ∧
    (∀ failed all_calls : List CallRow,
      (((carrierObjections failed all_calls).map (·.count)).sum) =
        (failed.filter fun c => decide (c.outcome = "negotiation_failed") ||
          decide (c.outcome = "dropped_call")).length +
        (all_calls.filter fun c =>
          decide (c.outcome = "no_loads_available")).length) := by
  refine ⟨?_, ?_, carrierObjections_count_sum⟩
  · intro l1 l2 all_calls c h1 h2
    have hfold : (l1 ++ c :: l2).foldl objectionStepFailed ([] :
        List (String × Nat)) = (l1 ++ l2).foldl objectionStepFailed [] := by
      rw [List.foldl_append, List.foldl_append, List.foldl_cons]
      have hid : objectionStepFailed (l1.foldl objectionStepFailed []) c =
          l1.foldl objectionStepFailed [] := by
        simp [objectionStepFailed, h1, h2]
      rw [hid]
    unfold carrierObjections
    rw [hfold]
  · intro failed l1 l2 c h1
    have hfold : (l1 ++ c :: l2).foldl objectionStepAll
        (failed.foldl objectionStepFailed []) =
        (l1 ++ l2).foldl objectionStepAll
          (failed.foldl objectionStepFailed []) := by
      rw [List.foldl_append, List.foldl_append, List.foldl_cons]
      have hid : objectionStepAll
          (l1.foldl objectionStepAll (failed.foldl objectionStepFailed [])) c =
          l1.foldl objectionStepAll (failed.foldl objectionStepFailed []) := by
        simp [objectionStepAll, h1]
      rw [hid]
    unfold carrierObjections
    rw [hfold]

/-- Witness for C10: an `abandoned` call contributes to nothing. -/
theorem C10_objections_scope_witness :
    (carrierObjections
        ([] ++ (⟨"abandoned", none, none, none, none, none, none⟩ :
          CallRow) :: []) [] =
      carrierObjections ([] ++ []) []) ∧
    (carrierObjections []
        ([] ++ (⟨"abandoned", none, none, none, none, none, none⟩ :
          CallRow) :: []) =
      carrierObjections [] ([] ++ [])) ∧
    (((carrierObjections
        [⟨"abandoned", none, none, none, none, none, none⟩]
        [⟨"abandoned", none, none, none, none, none, none⟩]).map
          (·.count)).sum) =
      (([⟨"abandoned", none, none, none, none, none, none⟩] :
        List CallRow).filter fun c =>
          decide (c.outcome = "negotiation_failed") ||
          decide (c.outcome = "dropped_call")).length +
      (([⟨"abandoned", none, none, none, none, none, none⟩] :
        List CallRow).filter fun c =>
          decide (c.outcome = "no_loads_available")).length :=
  ⟨C10_objections_scope.1 [] [] [] _ (by decide) (by decide),
   C10_objections_scope.2.1 [] [] [] _ (by decide),
   C10_objections_scope.2.2 _ _⟩

/-! ## Top lanes (C7, C8) -/

theorem topLanes_nil_of (all_calls : List CallRow)
    (hr : (laneAccOf all_calls).lane_calls = []) : topLanes all_calls = [] := by
  unfold topLanes
  rw [hr]

theorem topLanes_eq (all_calls : List CallRow) (p0 : String × Nat)
    (ps : List (String × Nat))
    (hr : (laneAccOf all_calls).lane_calls = p0 :: ps) :
    topLanes all_calls =
      (mostCommonN 5 (p0 :: ps)).map (laneEntry (laneAccOf all_calls)) := by
  unfold topLanes
  rw [hr]

/-- Follows the claim's words for C7 — "agreed_rate when present, else the
call's final_rate" — to be compared with the source's `orRate`, which
also falls through on a present-but-zero agreed rate. -/
def claimRate (c : CallRow) : Option ℚ :=
  if c.agreed_rate.isSome then c.agreed_rate else c.final_rate

/-- `laneStep` with the claim's rate selection substituted. -/
def claimLaneStep (acc : LaneAcc) (c : CallRow) : LaneAcc :=
  if falsyStr c.lane_origin || falsyStr c.lane_destination then acc
  else
    let lane := laneKey (c.lane_origin.getD "") (c.lane_destination.getD "")
    let acc1 : LaneAcc :=
      { acc with lane_calls := bump acc.lane_calls lane }
    if c.outcome = "booked" then
      let acc2 : LaneAcc :=
        { acc1 with lane_bookings := bump acc1.lane_bookings lane }
      match claimRate c with
      | some q => { acc2 with lane_rates := addRate acc2.lane_rates lane q }
      | none => acc2
    else acc1

def claimLaneAccOf (all_calls : List CallRow) : LaneAcc :=
  all_calls.foldl claimLaneStep ⟨[], [], []⟩

/-- `topLanes` with the claim's rate selection substituted. -/
def claimTopLanes (all_calls : List CallRow) : List TopLane :=
  match (claimLaneAccOf all_calls).lane_calls with
  | [] => []
  | _ => (mostCommonN 5 (claimLaneAccOf all_calls).lane_calls).map
      (laneEntry (claimLaneAccOf all_calls))

theorem claimTopLanes_eq (all_calls : List CallRow) (p0 : String × Nat)
    (ps : List (String × Nat))
    (hr : (claimLaneAccOf all_calls).lane_calls = p0 :: ps) :
    claimTopLanes all_calls =
      (mostCommonN 5 (p0 :: ps)).map (laneEntry (claimLaneAccOf all_calls)) := by
  unfold claimTopLanes
  rw [hr]

/-- Counterexample to C7 as stated: a booked A→B call with
`agreed_rate = 0` and `final_rate = 500`. The code's `agreed or final`
falls through on the falsy 0 and averages 500 (`"$500"`), while the
claim's "agreed_rate when present" keeps the 0 and would report `"$0"`. -/
theorem C7_top_lanes_cex :
    topLanes [⟨"booked", none, none, some "A", some "B", some 500, some 0⟩] =
      [⟨"A → B", 1, 1, "$500"⟩] ∧
    claimTopLanes
        [⟨"booked", none, none, some "A", some "B", some 500, some 0⟩] =
      [⟨"A → B", 1, 1, "$0"⟩] ∧
    topLanes [⟨"booked", none, none, some "A", some "B", some 500, some 0⟩] ≠
      claimTopLanes
        [⟨"booked", none, none, some "A", some "B", some 500, some 0⟩] := by
  have hacc : laneAccOf
      [⟨"booked", none, none, some "A", some "B", some 500, some 0⟩] =
      ⟨[("A → B", 1)], [("A → B", 1)], [("A → B", [(500 : ℚ)])]⟩ := rfl
  have hcacc : claimLaneAccOf
      [⟨"booked", none, none, some "A", some "B", some 500, some 0⟩] =
      ⟨[("A → B", 1)], [("A → B", 1)], [("A → B", [(0 : ℚ)])]⟩ := rfl
  have h1 : topLanes
      [⟨"booked", none, none, some "A", some "B", some 500, some 0⟩] =
      [⟨"A → B", 1, 1, "$500"⟩] := by
    rw [topLanes_eq _ ("A → B", 1) [] (by rw [hacc]), hacc]
    have hmc : mostCommonN 5 [("A → B", (1 : ℕ))] = [("A → B", 1)] := rfl
    rw [hmc]
    simp only [List.map_cons, List.map_nil]
    have hf : formatMoney 500 = "$500" := rfl
    have hentry : laneEntry
        ⟨[("A → B", 1)], [("A → B", 1)], [("A → B", [(500 : ℚ)])]⟩
        ("A → B", 1) =
        ⟨"A → B", 1, 1, formatMoney (pyRound (((500 : ℚ) + 0) / ((1 : ℕ) : ℚ)))⟩ :=
      rfl
    rw [hentry]
    norm_num [pyRound_ofNat, hf]
  have h2 : claimTopLanes
      [⟨"booked", none, none, some "A", some "B", some 500, some 0⟩] =
      [⟨"A → B", 1, 1, "$0"⟩] := by
    rw [claimTopLanes_eq _ ("A → B", 1) [] (by rw [hcacc]), hcacc]
    have hmc : mostCommonN 5 [("A → B", (1 : ℕ))] = [("A → B", 1)] := rfl
    rw [hmc]
    simp only [List.map_cons, List.map_nil]
    have hf : formatMoney 0 = "$0" := rfl
    have hentry : laneEntry
        ⟨[("A → B", 1)], [("A → B", 1)], [("A → B", [(0 : ℚ)])]⟩
        ("A → B", 1) =
        ⟨"A → B", 1, 1, formatMoney (pyRound (((0 : ℚ) + 0) / ((1 : ℕ) : ℚ)))⟩ :=
      rfl
    rw [hentry]
    norm_num [pyRound_zero, hf]
  refine ⟨h1, h2, ?_⟩
  rw [h1, h2]
  simp

/-- Claim C7 (amended): the top-lanes list ranks lanes by call volume,
descending (stable), truncated to 5; a lane's average uses the rates of
its booked calls, each being `agreed_rate` when present *and nonzero*,
else `final_rate` (a lane with no recorded rate reports `"$0"`); on the
spec's example the ranking and `"$1,000"` average come out exactly. -/
theorem C7_top_lanes_ranking :
    (topLanes
        [⟨"booked", none, none, some "A", some "B", none, some 1000⟩,
         ⟨"negotiation_failed", none, none, some "A", some "B", none, none⟩,
         ⟨"booked", none, none, some "C", some "D", none, some 500⟩] =
      [⟨"A → B", 2, 1, "$1,000"⟩, ⟨"C → D", 1, 1, "$500"⟩]) ∧
    (∀ calls : List CallRow,
      (topLanes calls).Sorted fun a b => b.calls ≤ a.calls) ∧
    (∀ calls : List CallRow, (topLanes calls).length ≤ 5) := by
  refine ⟨?_, ?_, ?_⟩
  · have hacc : laneAccOf
        [⟨"booked", none, none, some "A", some "B", none, some 1000⟩,
         ⟨"negotiation_failed", none, none, some "A", some "B", none, none⟩,
         ⟨"booked", none, none, some "C", some "D", none, some 500⟩] =
        ⟨[("A → B", 2), ("C → D", 1)], [("A → B", 1), ("C → D", 1)],
         [("A → B", [(1000 : ℚ)]), ("C → D", [(500 : ℚ)])]⟩ := rfl
    rw [topLanes_eq _ ("A → B", 2) [("C → D", 1)] (by rw [hacc]), hacc]
    have hmc : mostCommonN 5 [("A → B", (2 : ℕ)), ("C → D", 1)] =
        [("A → B", 2), ("C → D", 1)] := rfl
    rw [hmc]
    simp only [List.map_cons, List.map_nil]
    have hf1 : formatMoney 1000 = "$1,000" := rfl
    have hf2 : formatMoney 500 = "$500" := rfl
    have he1 : laneEntry
        ⟨[("A → B", 2), ("C → D", 1)], [("A → B", 1), ("C → D", 1)],
         [("A → B", [(1000 : ℚ)]), ("C → D", [(500 : ℚ)])]⟩ ("A → B", 2) =
        ⟨"A → B", 2, 1,
          formatMoney (pyRound (((1000 : ℚ) + 0) / ((1 : ℕ) : ℚ)))⟩ := rfl
    have he2 : laneEntry
        ⟨[("A → B", 2), ("C → D", 1)], [("A → B", 1), ("C → D", 1)],
         [("A → B", [(1000 : ℚ)]), ("C → D", [(500 : ℚ)])]⟩ ("C → D", 1) =
        ⟨"C → D", 1, 1,
          formatMoney (pyRound (((500 : ℚ) + 0) / ((1 : ℕ) : ℚ)))⟩ := rfl
    rw [he1, he2]
    norm_num [pyRound_ofNat, hf1, hf2]
  · intro calls
    cases hr : (laneAccOf calls).lane_calls with
    | nil =>
      rw [topLanes_nil_of calls hr]
      exact List.sorted_nil
    | cons p0 ps =>
      rw [topLanes_eq calls p0 ps hr]
      have hsorted : (mostCommonN 5 (p0 :: ps)).Sorted fun a b => b.2 ≤ a.2 :=
        List.Pairwise.sublist (List.take_sublist 5 _)
          (sorted_mostCommon (p0 :: ps))
      have hcalls : ∀ (acc : LaneAcc) (p : String × Nat),
          (laneEntry acc p).calls = p.2 := by
        intro acc p
        unfold laneEntry
        cases lookupRates acc.lane_rates p.1 <;> rfl
      exact List.Pairwise.map _
        (fun a b h => by rw [hcalls, hcalls]; exact h) hsorted
  · intro calls
    cases hr : (laneAccOf calls).lane_calls with
    | nil => rw [topLanes_nil_of calls hr]; simp
    | cons p0 ps =>
      rw [topLanes_eq calls p0 ps hr, List.length_map]
      calc (mostCommonN 5 (p0 :: ps)).length
          ≤ 5 := by
            simp only [mostCommonN]
            rw [List.length_take]
            exact min_le_left _ _

/-! ## Lane skip rule (C8) -/

theorem laneStep_skip (acc : LaneAcc) (c : CallRow)
    (h : (falsyStr c.lane_origin || falsyStr c.lane_destination) = true) :
    laneStep acc c = acc := by
  unfold laneStep
  rw [if_pos h]

theorem laneStep_lane_calls (acc : LaneAcc) (c : CallRow) :
    (laneStep acc c).lane_calls =
      if falsyStr c.lane_origin || falsyStr c.lane_destination then
        acc.lane_calls
      else bump acc.lane_calls
        (laneKey (c.lane_origin.getD "") (c.lane_destination.getD "")) := by
  unfold laneStep
  by_cases h : (falsyStr c.lane_origin || falsyStr c.lane_destination) = true
  · rw [if_pos h, if_pos h]
  · rw [if_neg h, if_neg h]
    by_cases hb : c.outcome = "booked"
    · rw [if_pos hb]
      cases orRate c.agreed_rate c.final_rate <;> rfl
    · rw [if_neg hb]

theorem sum_lane_calls :
    ∀ (calls : List CallRow) (acc : LaneAcc),
      ((calls.foldl laneStep acc).lane_calls.map (·.2)).sum =
        (acc.lane_calls.map (·.2)).sum +
          (calls.filter fun c =>
            !(falsyStr c.lane_origin || falsyStr c.lane_destination)).length
  | [], acc => by simp
  | c :: rest, acc => by
    rw [List.foldl_cons, sum_lane_calls rest (laneStep acc c),
      List.filter_cons]
    by_cases h : (falsyStr c.lane_origin || falsyStr c.lane_destination) = true
    · rw [laneStep_lane_calls, if_pos h]
      simp [h]
    · rw [laneStep_lane_calls,
        if_neg h, sum_bump]
      have hb : (!(falsyStr c.lane_origin || falsyStr c.lane_destination)) =
          true := by
        simpa using h
      rw [hb]
      simp
      omega

/-- Counterexample to C8 as stated: a call with `lane_origin = "A"` but no
`lane_destination` — exactly one endpoint present — is *skipped*: it
produces no lane at all, where the claim says it is counted. -/
theorem C8_top_lanes_skip_cex :
    ((⟨"booked", none, none, some "A", none, none, none⟩ :
      CallRow).lane_origin = some "A") ∧
    ((⟨"booked", none, none, some "A", none, none, none⟩ :
      CallRow).lane_destination = none) ∧
    topLanes [⟨"booked", none, none, some "A", none, none, none⟩] = [] :=
  ⟨rfl, rfl, rfl⟩

/-- Claim C8 (amended): `_top_lanes` skips a call if and only if at least
one of `lane_origin`/`lane_destination` is absent or empty (Python
falsiness); only calls with both endpoints present and non-empty are
counted, and a skipped call contributes nothing to the output at all. -/
theorem C8_top_lanes_skip :
    (∀ calls : List CallRow,
      (((laneAccOf calls).lane_calls.map (·.2)).sum) =
        (calls.filter fun c =>
          !(falsyStr c.lane_origin || falsyStr c.lane_destination)).length) ∧
    (∀ (l1 l2 : List CallRow) (c : CallRow),
      (falsyStr c.lane_origin || falsyStr c.lane_destination) = true →
      topLanes (l1 ++ c :: l2) = topLanes (l1 ++ l2)) := by
  constructor
  · intro calls
    have := sum_lane_calls calls ⟨[], [], []⟩
    simpa [laneAccOf] using this
  · intro l1 l2 c h
    have hacc : laneAccOf (l1 ++ c :: l2) = laneAccOf (l1 ++ l2) := by
      unfold laneAccOf
      rw [List.foldl_append, List.foldl_append, List.foldl_cons,
        laneStep_skip _ _ h]
    unfold topLanes
    rw [hacc]

/-- Witness for C8's congruence at a one-endpoint call. -/
theorem C8_top_lanes_skip_witness :
    topLanes ([] ++ (⟨"booked", none, none, some "A", none, none, none⟩ :
        CallRow) :: []) =
      topLanes ([] ++ []) :=
  C8_top_lanes_skip.2 [] [] _ rfl

end HrFde

